import Mathlib

/-!
# CHIP-8 interpreter core (`cpu/chip8.go`)

A shallow embedding of the machine state `Chip8` and of the two operations
`EmulateInstruction` and `UpdateTimers`.

* Machine integers are natural numbers; every place where the Go code computes
  in `uint8` or `uint16` carries an explicit reduction (`u8`, `u16`, `sub8`).
* Go arrays are functions from indices; an index expression that can leave the
  array is guarded, and the operation returns `none` where Go would stop with
  an index-out-of-range (or division-by-zero) runtime error.
* The random byte of `CXNN` is an extra argument `rnd`.
* `fmt.Println` calls have no effect on the machine state and are left out.
-/

namespace Chip8emu

/-! ## Machine integers -/

/-- Truncation to `uint8`. -/
def u8 (n : Nat) : Nat := n % 256

/-- Truncation to `uint16`. -/
def u16 (n : Nat) : Nat := n % 65536

/-- Subtraction `a - b` in `uint8`. -/
def sub8 (a b : Nat) : Nat := (a + 256 - b % 256) % 256

/-- Subtraction `a - b` in `uint16`. -/
def sub16 (a b : Nat) : Nat := (a + 65536 - b % 65536) % 65536

/-! ## Data model -/

/-- Execution state constant `QUIT` (`iota` = 0). -/
def QUIT : Nat := 0

/-- Execution state constant `RUNNING`. -/
def RUNNING : Nat := 1

/-- Execution state constant `PAUSED`. -/
def PAUSED : Nat := 2

/-- Decoded instruction (`type Instruction struct`). -/
structure Instruction where
  OpCode : Nat
  NNN : Nat
  NN : Nat
  N : Nat
  X : Nat
  Y : Nat

/-- Host configuration (`config.Config`). -/
structure Config where
  WindowWidth : Nat
  WindowHeight : Nat
  FgColor : Nat
  BgColor : Nat
  ScaleFactor : Nat
  PixelOutline : Bool
  InstructionPerSec : Nat

/-- Machine state (`type Chip8 struct`).  `Ram` has 4096 cells, `Display` has
`64 * 32 = 2048`, `Stack`, `V` and `KeyPad` have 16. -/
structure Chip8 where
  State : Nat
  Ram : Nat → Nat
  Display : Nat → Bool
  Stack : Nat → Nat
  StackPointer : Nat
  V : Nat → Nat
  I : Nat
  PC : Nat
  DelayTimer : Nat
  SoundTimer : Nat
  KeyPad : Nat → Bool
  ROMName : String
  Instruction : Instruction
  Draw : Bool

/-- Length of `Chip8.Ram`. -/
def ramSize : Nat := 4096

/-- Length of `Chip8.Display`. -/
def displaySize : Nat := 64 * 32

/-- Length of `Chip8.Stack`, `Chip8.V` and `Chip8.KeyPad`. -/
def sixteen : Nat := 16

/-- A `for i := 0; i < n; i++` loop whose body may fail: iterations
`0, 1, ..., n - 1` in this order. -/
def forLoop {σ : Type} (body : Nat → σ → Option σ) : Nat → σ → Option σ
  | 0, s => some s
  | n + 1, s => (forLoop body n s).bind (body n)

/-! ## Fetch and decode -/

/-- The five operand fields derived from the fetched opcode
(lines 103-107). -/
def decode (OpCode : Nat) : Instruction :=
  { OpCode := OpCode
    NNN := OpCode &&& 0x0FFF
    NN := u8 (OpCode &&& 0x0FF)
    N := u8 (OpCode &&& 0x0F)
    X := u8 ((OpCode >>> 8) &&& 0x0F)
    Y := u8 ((OpCode >>> 4) &&& 0x0F) }

/-! ## Execute -/

/-- Arithmetic family: `case 0x08`. -/
def exec8 (c : Chip8) : Option Chip8 :=
  let X := c.Instruction.X
  let Y := c.Instruction.Y
  match c.Instruction.N with
  | 0x0 => some { c with V := Function.update c.V X (c.V Y) }
  | 0x1 => some { c with V := Function.update c.V X (c.V X ||| c.V Y) }
  | 0x2 => some { c with V := Function.update c.V X (c.V X &&& c.V Y) }
  | 0x3 => some { c with V := Function.update c.V X (c.V X ^^^ c.V Y) }
  | 0x4 =>
    let c1 := if c.V X > sub8 0xFF (c.V Y) then
        { c with V := Function.update c.V 0xF 1 } else c
    some { c1 with V := Function.update c1.V X (u8 (c1.V X + c1.V Y)) }
  | 0x5 =>
    let c1 := if c.V X ≥ c.V Y then
        { c with V := Function.update c.V 0xF 1 }
      else { c with V := Function.update c.V 0xF 0 }
    some { c1 with V := Function.update c1.V X (sub8 (c1.V X) (c1.V Y)) }
  | 0x6 =>
    let c1 := { c with V := Function.update c.V 0xF (c.V X &&& 0x1) }
    some { c1 with V := Function.update c1.V X (c1.V X >>> 1) }
  | 0x7 =>
    let c1 := if c.V Y ≥ c.V X then
        { c with V := Function.update c.V 0xF 1 }
      else { c with V := Function.update c.V 0xF 0 }
    some { c1 with V := Function.update c1.V X (sub8 (c1.V Y) (c1.V X)) }
  | 0xE =>
    let c1 := { c with V := Function.update c.V 0xF ((c.V X &&& 0x80) >>> 7) }
    some { c1 with V := Function.update c1.V X (u8 (c1.V X <<< 1)) }
  | _ => some c

/-- The test of line 263, `(sprite & (0x80 >> j)) != 0`: bit `j` of the sprite
byte, counted from the most significant bit. -/
def spriteBit (sprite j : Nat) : Bool := sprite &&& (0x80 >>> j) != 0

/-- The index of line 265,
`int(X_pos+uint8(j)) + (int(Y_pos+uint8(i)) * int(config.WindowWidth))`. -/
def cellIndex (config : Config) (X_pos Y_pos i j : Nat) : Nat :=
  u8 (X_pos + u8 j) + u8 (Y_pos + u8 i) * config.WindowWidth

/-- Body of the inner loop of `DXYN` (lines 262-276): sprite bit `j` of row
`i`. -/
def drawPixel (config : Config) (X_pos Y_pos sprite i j : Nat) (c : Chip8) : Chip8 :=
  if spriteBit sprite j = true then
    let pos := cellIndex config X_pos Y_pos i j
    if pos < displaySize then
      let c1 := if c.Display pos = true then
          { c with V := Function.update c.V 0xF 1 } else c
      { c1 with Display := Function.update c1.Display pos (!c1.Display pos) }
    else c
  else c

/-- Body of the outer loop of `DXYN` (lines 259-277): sprite row `i`. -/
def drawRow (config : Config) (X_pos Y_pos i : Nat) (c : Chip8) : Option Chip8 :=
  let addr := u16 (c.I + u16 i)
  if addr < ramSize then
    let sprite := c.Ram addr
    forLoop (fun j d => some (drawPixel config X_pos Y_pos sprite i j d)) 8 c
  else none

/-- Draw sprite: `case 0x0D`. -/
def execD (config : Config) (c : Chip8) : Option Chip8 :=
  if u8 config.WindowWidth = 0 then none
  else
    let X_pos := c.V c.Instruction.X % u8 config.WindowWidth
    if u8 config.WindowHeight = 0 then none
    else
      let Y_pos := c.V c.Instruction.Y % u8 config.WindowHeight
      let c1 := { c with V := Function.update c.V 0xF 0 }
      (forLoop (drawRow config X_pos Y_pos) c1.Instruction.N c1).bind
        (fun c2 => some { c2 with Draw := true })

/-- Key skips: `case 0x0E`. -/
def execE (c : Chip8) : Option Chip8 :=
  match c.Instruction.NN with
  | 0x9E =>
    if c.V c.Instruction.X < sixteen then
      if c.KeyPad (c.V c.Instruction.X) = true then
        some { c with PC := u16 (c.PC + 2) }
      else some c
    else none
  | 0xA1 =>
    if c.V c.Instruction.X < sixteen then
      if !c.KeyPad (c.V c.Instruction.X) then
        some { c with PC := u16 (c.PC + 2) }
      else some c
    else none
  | _ => some c

/-- One iteration of the `FX55` loop: `c.Ram[c.I+uint16(i)] = c.V[i]`. -/
def dumpStep (i : Nat) (c : Chip8) : Option Chip8 :=
  if u16 (c.I + u16 i) < ramSize then
    some { c with Ram := Function.update c.Ram (u16 (c.I + u16 i)) (c.V i) }
  else none

/-- One iteration of the `FX65` loop: `c.V[i] = c.Ram[c.I+uint16(i)]`. -/
def loadStep (i : Nat) (c : Chip8) : Option Chip8 :=
  if u16 (c.I + u16 i) < ramSize then
    some { c with V := Function.update c.V i (c.Ram (u16 (c.I + u16 i))) }
  else none

/-- Timer, key-wait, index and memory family: `case 0x0F`. -/
def execF (c : Chip8) : Option Chip8 :=
  let X := c.Instruction.X
  match c.Instruction.NN with
  | 0x0A =>
    match (List.range sixteen).find? (fun i => c.KeyPad i) with
    | some i => some { c with V := Function.update c.V X (u8 i) }
    | none => some { c with PC := sub16 c.PC 2 }
  | 0x1E => some { c with I := u16 (c.I + c.V X) }
  | 0x07 => some { c with V := Function.update c.V X c.DelayTimer }
  | 0x15 => some { c with DelayTimer := c.V X }
  | 0x18 => some { c with SoundTimer := c.V X }
  | 0x29 => some { c with I := u16 (c.V X * 5) }
  | 0x33 =>
    if c.I < ramSize then
      let c1 := { c with Ram := Function.update c.Ram c.I (c.V X / 100) }
      if u16 (c1.I + 1) < ramSize then
        let c2 := { c1 with Ram := Function.update c1.Ram (u16 (c1.I + 1)) ((c1.V X / 10) % 10) }
        if u16 (c2.I + 2) < ramSize then
          some { c2 with Ram := Function.update c2.Ram (u16 (c2.I + 2)) (c2.V X % 10) }
        else none
      else none
    else none
  | 0x55 => forLoop dumpStep (X + 1) c
  | 0x65 => forLoop loadStep (X + 1) c
  | _ => some c

/-- The `switch` of `EmulateInstruction` (lines 109-358), run on the state in
which the opcode has been fetched and decoded and `PC` already advanced. -/
def execute (config : Config) (rnd : Nat) (c : Chip8) : Option Chip8 :=
  match (c.Instruction.OpCode >>> 12) &&& 0x0F with
  | 0x0 =>
    if c.Instruction.NN = 0xE0 then
      some { c with Display := fun i => if i < displaySize then false else c.Display i }
    else if c.Instruction.NN = 0xEE then
      let c1 := { c with StackPointer := sub8 c.StackPointer 1 }
      if c1.StackPointer < sixteen then
        some { c1 with PC := c1.Stack c1.StackPointer }
      else none
    else some c
  | 0x01 => some { c with PC := c.Instruction.NNN }
  | 0x02 =>
    if c.StackPointer < sixteen then
      let c1 := { c with Stack := Function.update c.Stack c.StackPointer c.PC }
      let c2 := { c1 with StackPointer := u8 (c1.StackPointer + 1) }
      some { c2 with PC := c2.Instruction.NNN }
    else none
  | 0x03 =>
    if c.V c.Instruction.X = c.Instruction.NN then
      some { c with PC := u16 (c.PC + 2) }
    else some c
  | 0x04 =>
    if c.V c.Instruction.X ≠ c.Instruction.NN then
      some { c with PC := u16 (c.PC + 2) }
    else some c
  | 0x05 =>
    if c.Instruction.N ≠ 0 then some c
    else if c.V c.Instruction.X = c.V c.Instruction.Y then
      some { c with PC := u16 (c.PC + 2) }
    else some c
  | 0x06 => some { c with V := Function.update c.V c.Instruction.X c.Instruction.NN }
  | 0x07 =>
    some { c with V := Function.update c.V c.Instruction.X
                    (u8 (c.V c.Instruction.X + c.Instruction.NN)) }
  | 0x08 => exec8 c
  | 0x09 =>
    if c.Instruction.N ≠ 0 then some c
    else if c.V c.Instruction.X ≠ c.V c.Instruction.Y then
      some { c with PC := u16 (c.PC + 2) }
    else some c
  | 0x0A => some { c with I := c.Instruction.NNN }
  | 0x0B => some { c with PC := u16 (c.Instruction.NNN + c.V 0) }
  | 0x0C => some { c with V := Function.update c.V c.Instruction.X (u8 rnd &&& c.Instruction.NN) }
  | 0x0D => execD config c
  | 0x0E => execE c
  | 0x0F => execF c
  | _ => some c

/-- The opcode fetched at `PC` (line 100):
`uint16(c.Ram[c.PC])<<8 | uint16(c.Ram[c.PC+1])`. -/
def fetch (c : Chip8) : Option Nat :=
  if c.PC < ramSize ∧ u16 (c.PC + 1) < ramSize then
    some (u16 (c.Ram c.PC <<< 8) ||| c.Ram (u16 (c.PC + 1)))
  else none

/-- `func (c *Chip8) EmulateInstruction(config *config.Config)`: fetch, advance
`PC` by 2, decode, execute.  `none` is a Go runtime error. -/
def EmulateInstruction (config : Config) (rnd : Nat) (c : Chip8) : Option Chip8 :=
  (fetch c).bind (fun OpCode =>
    let c1 := { c with Instruction := { c.Instruction with OpCode := OpCode } }
    let c2 := { c1 with PC := u16 (c1.PC + 2) }
    let c3 := { c2 with Instruction := decode c2.Instruction.OpCode }
    execute config rnd c3)

/-- `func (c *Chip8) UpdateTimers()`.  Each decrement is guarded by `> 0`, so
the `uint8` decrement cannot wrap. -/
def UpdateTimers (c : Chip8) : Chip8 :=
  let c1 := if c.DelayTimer > 0 then { c with DelayTimer := c.DelayTimer - 1 } else c
  if c1.SoundTimer > 0 then { c1 with SoundTimer := c1.SoundTimer - 1 } else c1

/-- The configuration built in `main`: `config.NewConfig(64, 32, ...)`. -/
def config64x32 : Config :=
  { WindowWidth := 64
    WindowHeight := 32
    FgColor := 0xFFA4FFFF
    BgColor := 0x000000FF
    ScaleFactor := 10
    PixelOutline := true
    InstructionPerSec := 700 }

/-- A machine state with every cell zero / off, used to build concrete
states. -/
def blank : Chip8 :=
  { State := RUNNING
    Ram := fun _ => 0
    Display := fun _ => false
    Stack := fun _ => 0
    StackPointer := 0
    V := fun _ => 0
    I := 0
    PC := 0x200
    DelayTimer := 0
    SoundTimer := 0
    KeyPad := fun _ => false
    ROMName := ""
    Instruction := { OpCode := 0, NNN := 0, NN := 0, N := 0, X := 0, Y := 0 }
    Draw := false }

/-- The bytes at `PC` and `PC + 1` are `hi` and `lo`, both inside `Ram`. -/
def pointsAt (c : Chip8) (hi lo : Nat) : Prop :=
  c.PC + 1 < ramSize ∧ c.Ram c.PC = hi ∧ c.Ram (c.PC + 1) = lo

instance (c : Chip8) (hi lo : Nat) : Decidable (pointsAt c hi lo) := by
  unfold pointsAt; infer_instance

/-! ## Specification vocabulary and concrete states -/

/-- The state on which the `switch` runs: opcode `w` fetched and decoded, `PC`
advanced past it. -/
def fetched (c : Chip8) (w : Nat) : Chip8 :=
  { c with PC := c.PC + 2, Instruction := decode w }

/-- Every field other than `PC` and the decoded `Instruction` agrees. -/
def sameMachine (r s : Chip8) : Prop :=
  r.State = s.State ∧ r.Ram = s.Ram ∧ r.Display = s.Display ∧ r.Stack = s.Stack ∧
  r.StackPointer = s.StackPointer ∧ r.V = s.V ∧ r.I = s.I ∧
  r.DelayTimer = s.DelayTimer ∧ r.SoundTimer = s.SoundTimer ∧ r.KeyPad = s.KeyPad ∧
  r.ROMName = s.ROMName ∧ r.Draw = s.Draw

/-- A state whose `PC = 0x200` holds the opcode bytes `hi lo`, with registers
`V`; everything else as in `blank`. -/
def stateAt (hi lo : Nat) (V : Nat → Nat) : Chip8 :=
  { blank with
    Ram := fun a => if a = 0x200 then hi else if a = 0x201 then lo else 0
    V := V }

/-- Registers `V0 = 1`, `V1 = 1`, `VF = 1`, all others 0. -/
def regsCarry : Nat → Nat := fun i => if i = 0 then 1 else if i = 1 then 1 else if i = 0xF then 1 else 0

/-- Registers `V0 = 10`, `VF = 5`, all others 0. -/
def regsBorrowX : Nat → Nat := fun i => if i = 0 then 10 else if i = 0xF then 5 else 0

/-- Registers `V0 = 5`, `VF = 10`, all others 0. -/
def regsBorrowY : Nat → Nat := fun i => if i = 0 then 5 else if i = 0xF then 10 else 0

/-- The instruction batch of `main` (lines 36-38): `n` successive calls of
`EmulateInstruction`, call number `k` drawing the random byte `rnd k`. -/
def runN (config : Config) (rnd : Nat → Nat) : Nat → Chip8 → Option Chip8
  | 0, s => some s
  | n + 1, s => (runN config rnd n s).bind (EmulateInstruction config (rnd n))

/-- State at `0x200` holding `F30A` with keypad `kp`. -/
def keyState (kp : Nat → Bool) : Chip8 :=
  { stateAt 0xF3 0x0A (fun i => 7 * i) with KeyPad := kp }

/-- State at `0x200` holding `F233`, with `V2 = 157` and `I = 0x300`. -/
def bcdState : Chip8 :=
  { stateAt 0xF2 0x33 (fun i => if i = 2 then 157 else 0) with I := 0x300 }

/-- State at `0x200` holding `F255` followed by `F265`, with `I = 0x300` and
registers `Vi = 11 * (i + 1)`. -/
def dumpState : Chip8 :=
  { blank with
    Ram := fun a => if a = 0x200 then 0xF2 else if a = 0x201 then 0x55
      else if a = 0x202 then 0xF2 else if a = 0x203 then 0x65 else 0
    V := fun i => 11 * (i + 1)
    I := 0x300 }

/-- The pixels toggled at cell `p` by the first `n` bits of a sprite row, as a
parity. -/
def rowParity (config : Config) (x y sp i : Nat) : Nat → Nat → Bool
  | 0, _ => false
  | n + 1, p => (rowParity config x y sp i n p ^^
      (spriteBit sp n && decide (cellIndex config x y i n < displaySize)
        && decide (cellIndex config x y i n = p)))

/-- The pixels toggled at cell `p` by the first `n` rows of the sprite stored
at `I` in `ram`, as a parity. -/
def spriteParity (config : Config) (x y : Nat) (ram : Nat → Nat) (I : Nat) : Nat → Nat → Bool
  | 0, _ => false
  | n + 1, p => (spriteParity config x y ram I n p ^^ rowParity config x y (ram (I + n)) n 8 p)

/-- State at `0x200` holding `D012` twice, sprite rows `FF 81` at `I = 0x300`,
`V0 = 60`, `V1 = 5`, and every third display cell on. -/
def drawState : Chip8 :=
  { blank with
    Ram := fun a => if a = 0x200 then 0xD0 else if a = 0x201 then 0x12
      else if a = 0x202 then 0xD0 else if a = 0x203 then 0x12
      else if a = 0x300 then 0xFF else if a = 0x301 then 0x81 else 0
    V := fun i => if i = 0 then 60 else if i = 1 then 5 else 0
    I := 0x300
    Display := fun p => p % 3 == 0 }

/-- State at `0x200` holding `D011` twice, with sprite byte `sp` at
`I = 0x300`, `V0 = x`, `V1 = y` and every display cell off. -/
def spriteState (sp x y : Nat) : Chip8 :=
  { blank with
    Ram := fun a => if a = 0x200 then 0xD0 else if a = 0x201 then 0x11
      else if a = 0x202 then 0xD0 else if a = 0x203 then 0x11
      else if a = 0x300 then sp else 0
    V := fun i => if i = 0 then x else if i = 1 then y else 0
    I := 0x300 }

/-- The big-endian byte pair at `PC`: `256 * Ram[PC] + Ram[PC+1]`. -/
def opcodeAt (c : Chip8) : Nat := 256 * c.Ram c.PC + c.Ram (c.PC + 1)

/-- State at `0x200` holding `2204` (call `0x204`), with `00EE` at `0x204`
and stack pointer 3. -/
def callState : Chip8 :=
  { blank with
    Ram := fun a => if a = 0x200 then 0x22 else if a = 0x201 then 0x04
      else if a = 0x204 then 0x00 else if a = 0x205 then 0xEE else 0
    StackPointer := 3 }

/-- State at `0x200` holding the bytes `hi lo`, with `V2 = v` and keypad
`kp`. -/
def skipState (hi lo v : Nat) (kp : Nat → Bool) : Chip8 :=
  { stateAt hi lo (fun i => if i = 2 then v else 0) with KeyPad := kp }

/-- State at `0x200` holding the bytes `hi lo`, with `I = 0x300`, registers
`Vi = 11 * (i + 1)` and memory cell `a` (other than the opcode) holding
`a mod 7`. -/
def frameState (hi lo : Nat) : Chip8 :=
  { blank with
    Ram := fun a => if a = 0x200 then hi else if a = 0x201 then lo else a % 7
    V := fun i => 11 * (i + 1)
    I := 0x300 }

/-- Registers with `VF = v`, all others 0. -/
def regsFlag (v : Nat) : Nat → Nat := fun i => if i = 0xF then v else 0

/-! ## Construction, `NewChip8` -/

/-- A `for i := range xs` loop whose body cannot fail: iterations
`0, 1, ..., n - 1` in this order. -/
def rangeLoop {σ : Type} (body : Nat → σ → σ) : Nat → σ → σ
  | 0, s => s
  | n + 1, s => body n (rangeLoop body n s)

/-- The font table of `NewChip8` (lines 54-71): 16 glyphs of 5 bytes. -/
def font : List Nat :=
  [0xF0, 0x90, 0x90, 0x90, 0xF0,
   0x20, 0x60, 0x20, 0x20, 0x70,
   0xF0, 0x10, 0xF0, 0x80, 0xF0,
   0xF0, 0x10, 0xF0, 0x10, 0xF0,
   0x90, 0x90, 0xF0, 0x10, 0x10,
   0xF0, 0x80, 0xF0, 0x10, 0xF0,
   0xF0, 0x80, 0xF0, 0x90, 0xF0,
   0xF0, 0x10, 0x20, 0x40, 0x40,
   0xF0, 0x90, 0xF0, 0x90, 0xF0,
   0xF0, 0x90, 0xF0, 0x10, 0xF0,
   0xF0, 0x90, 0xF0, 0x90, 0x90,
   0xE0, 0x90, 0xE0, 0x90, 0xE0,
   0xF0, 0x80, 0x80, 0x80, 0xF0,
   0xE0, 0x90, 0x90, 0x90, 0xE0,
   0xF0, 0x80, 0xF0, 0x80, 0xF0,
   0xF0, 0x80, 0xF0, 0x80, 0x80]

/-- The Go zero value `&Chip8{}`. -/
def zeroChip8 : Chip8 :=
  { State := 0
    Ram := fun _ => 0
    Display := fun _ => false
    Stack := fun _ => 0
    StackPointer := 0
    V := fun _ => 0
    I := 0
    PC := 0
    DelayTimer := 0
    SoundTimer := 0
    KeyPad := fun _ => false
    ROMName := ""
    Instruction := { OpCode := 0, NNN := 0, NN := 0, N := 0, X := 0, Y := 0 }
    Draw := false }

/-- `func NewChip8(romName string) (*Chip8, error)`.  The outcome of
`os.ReadFile(romName)` is the argument `file`: `none` for a read error,
`some rom` for the bytes read.  `none` as result is the error return.  The
index `entrypoint+uint16(i)` of the ROM loop stays inside `Ram` because of the
size check before it. -/
def NewChip8 (romName : String) (file : Option (List Nat)) : Option Chip8 :=
  let chip8 := zeroChip8
  let entrypoint := 0x200
  let maxRomSize := ramSize - entrypoint
  let chip8 := { chip8 with State := RUNNING }
  let chip8 := { chip8 with PC := entrypoint }
  let chip8 := { chip8 with StackPointer := 0 }
  let chip8 := { chip8 with ROMName := romName }
  let chip8 := rangeLoop
    (fun i c => { c with Ram := Function.update c.Ram i (font.getD i 0) }) font.length chip8
  match file with
  | none => none
  | some rom =>
    if rom.length > maxRomSize then none
    else
      some (rangeLoop
        (fun i c =>
          { c with Ram := Function.update c.Ram (u16 (entrypoint + u16 i)) (rom.getD i 0) })
        rom.length chip8)

/-- The 6-byte ROM `60 05 70 03 00 E0`. -/
def sampleRom : List Nat := [0x60, 0x05, 0x70, 0x03, 0x00, 0xE0]

/-! ## Opcode patterns -/

/-- The opcodes that reach a handler in the `switch` of `EmulateInstruction`:
the top nibble selects the case, then `NN` (cases `0x0`, `0xE`, `0xF`) or `N`
(cases `0x5`, `0x8`, `0x9`) selects the branch. -/
def isDispatched (w : Nat) : Bool :=
  match w / 4096 % 16 with
  | 0x0 => w % 256 == 0xE0 || w % 256 == 0xEE
  | 0x5 => w % 16 == 0
  | 0x8 => decide (w % 16 ≤ 7) || w % 16 == 0xE
  | 0x9 => w % 16 == 0
  | 0xE => w % 256 == 0x9E || w % 256 == 0xA1
  | 0xF => w % 256 == 0x07 || w % 256 == 0x0A || w % 256 == 0x15 || w % 256 == 0x18
      || w % 256 == 0x1E || w % 256 == 0x29 || w % 256 == 0x33 || w % 256 == 0x55
      || w % 256 == 0x65
  | _ => true

/-- The opcode patterns the specification lists as defined: `00E0`, `00EE`,
`1NNN`, `2NNN`, `3XNN`, `4XNN`, `5XY0`, `6XNN`, `7XNN`, `8XY0`-`8XY7`, `8XYE`,
`9XY0`, `ANNN`, `BNNN`, `CXNN`, `DXYN`, `EX9E`, `EXA1`, `FX07`, `FX0A`, `FX15`,
`FX18`, `FX1E`, `FX29`, `FX33`, `FX55`, `FX65`. -/
def isDefinedOpcode (w : Nat) : Bool :=
  match w / 4096 % 16 with
  | 0x0 => w == 0x00E0 || w == 0x00EE
  | 0x5 => w % 16 == 0
  | 0x8 => decide (w % 16 ≤ 7) || w % 16 == 0xE
  | 0x9 => w % 16 == 0
  | 0xE => w % 256 == 0x9E || w % 256 == 0xA1
  | 0xF => w % 256 == 0x07 || w % 256 == 0x0A || w % 256 == 0x15 || w % 256 == 0x18
      || w % 256 == 0x1E || w % 256 == 0x29 || w % 256 == 0x33 || w % 256 == 0x55
      || w % 256 == 0x65
  | _ => true

/-- State at `0x200` holding the bytes `hi lo`, with display cell 5 on and an
empty stack. -/
def litState (hi lo : Nat) : Chip8 :=
  { stateAt hi lo (fun _ => 0) with Display := fun p => p == 5 }

/-- State at `0x200` holding the bytes `hi lo`, with index register `I = i`
and every other cell zero. -/
def indexState (hi lo i : Nat) : Chip8 :=
  { stateAt hi lo (fun _ => 0) with I := i }

/-- State at `0x200` holding the bytes `hi lo`, with stack pointer `sp`. -/
def stackState (hi lo sp : Nat) : Chip8 :=
  { stateAt hi lo (fun _ => 0) with StackPointer := sp }

/-! ## Fetch and decode in arithmetic terms -/

theorem and_0FFF (w : Nat) : w &&& 0x0FFF = w % 4096 :=
  Nat.and_pow_two_sub_one_eq_mod w 12

theorem and_0FF (w : Nat) : w &&& 0x0FF = w % 256 :=
  Nat.and_pow_two_sub_one_eq_mod w 8

theorem and_0F (w : Nat) : w &&& 0x0F = w % 16 :=
  Nat.and_pow_two_sub_one_eq_mod w 4

theorem decode_arith (w : Nat) :
    decode w =
      { OpCode := w, NNN := w % 4096, NN := w % 256, N := w % 16,
        X := w / 256 % 16, Y := w / 16 % 16 } := by
  simp only [decode, u8, and_0FFF, and_0FF, and_0F, Nat.shiftRight_eq_div_pow]
  congr 1 <;> omega

theorem topNibble_arith (w : Nat) : (w >>> 12) &&& 0x0F = w / 4096 % 16 := by
  rw [Nat.shiftRight_eq_div_pow]; exact and_0F _

theorem fetch_of_pointsAt {c : Chip8} {hi lo : Nat} (h : pointsAt c hi lo)
    (hhi : hi < 256) (hlo : lo < 256) : fetch c = some (256 * hi + lo) := by
  obtain ⟨hpc, h1, h2⟩ := h
  have e1 : u16 (c.PC + 1) = c.PC + 1 := by unfold u16 ramSize at *; omega
  have e2 : u16 (hi <<< 8) = 2 ^ 8 * hi := by
    rw [Nat.shiftLeft_eq]; unfold u16; omega
  have e3 : 2 ^ 8 * hi ||| lo = 2 ^ 8 * hi + lo :=
    (Nat.mul_add_lt_is_or (by simpa using hlo) hi).symm
  have hlt : c.PC < ramSize ∧ u16 (c.PC + 1) < ramSize := by
    rw [e1]; unfold ramSize at *; omega
  rw [fetch, if_pos hlt, e1, h1, h2, e2, e3]
  norm_num

theorem EmulateInstruction_of_pointsAt (config : Config) (rnd : Nat) {c : Chip8}
    {hi lo : Nat} (h : pointsAt c hi lo) (hhi : hi < 256) (hlo : lo < 256) :
    EmulateInstruction config rnd c = execute config rnd (fetched c (256 * hi + lo)) := by
  have e : u16 (c.PC + 2) = c.PC + 2 := by
    have := h.1; unfold u16 ramSize at *; omega
  simp only [EmulateInstruction, fetch_of_pointsAt h hhi hlo, Option.some_bind, e, fetched]

/-! ## Opcodes given by their nibbles -/

theorem sameMachine_fetched (c : Chip8) (w : Nat) : sameMachine (fetched c w) c :=
  ⟨rfl, rfl, rfl, rfl, rfl, rfl, rfl, rfl, rfl, rfl, rfl, rfl⟩

/-- Decoded fields of the opcode whose nibbles are `t X Y N`. -/
theorem decode_nibbles (t X Y N : Nat) (hX : X < 16) (hY : Y < 16) (hN : N < 16) :
    decode (256 * (16 * t + X) + (16 * Y + N)) =
      { OpCode := 256 * (16 * t + X) + (16 * Y + N), NNN := 256 * X + 16 * Y + N,
        NN := 16 * Y + N, N := N, X := X, Y := Y } := by
  rw [decode_arith]; congr 1 <;> omega

/-- Decoded fields of the opcode `tXNN`. -/
theorem decode_byte (t X NN : Nat) (hX : X < 16) (hNN : NN < 256) :
    decode (256 * (16 * t + X) + NN) =
      { OpCode := 256 * (16 * t + X) + NN, NNN := 256 * X + NN,
        NN := NN, N := NN % 16, X := X, Y := NN / 16 } := by
  rw [decode_arith]; congr 1 <;> omega

theorem topNibble_byte (t X NN : Nat) (ht : t < 16) (hX : X < 16) (hNN : NN < 256) :
    ((256 * (16 * t + X) + NN) >>> 12) &&& 0x0F = t := by
  rw [topNibble_arith]; omega

/-- Execution of an opcode `tXNN` starts the `switch` in case `t` with the
fields `X` and `NN` decoded. -/
theorem emulate_byte (config : Config) (rnd : Nat) {c : Chip8} (t X NN : Nat)
    (ht : t < 16) (hX : X < 16) (hNN : NN < 256) (h : pointsAt c (16 * t + X) NN) :
    EmulateInstruction config rnd c =
      execute config rnd
        { c with
          PC := c.PC + 2
          Instruction :=
            { OpCode := 256 * (16 * t + X) + NN, NNN := 256 * X + NN,
              NN := NN, N := NN % 16, X := X, Y := NN / 16 } } := by
  rw [EmulateInstruction_of_pointsAt config rnd h (by omega) hNN, fetched,
    decode_byte t X NN hX hNN]

/-! ## C3: conditional skips -/

/-- C3.  For a state whose `PC` (at most 4094) points at `3XNN`, `4XNN`,
`5XY0` or `9XY0`, `EmulateInstruction` returns a state whose `PC` is the old
`PC + 4` exactly when the comparison holds (`Vx = NN`, `Vx ≠ NN`, `Vx = Vy`,
`Vx ≠ Vy`) and the old `PC + 2` otherwise; registers, memory, timers, stack,
display (and `I`, keypad) are unchanged. -/
theorem skip_instructions (config : Config) (rnd : Nat) (s : Chip8) (X Y NN : Nat)
    (hX : X < 16) (hY : Y < 16) (hNN : NN < 256) (hPC : s.PC ≤ 4094) :
    (pointsAt s (0x30 + X) NN →
      ∃ r, EmulateInstruction config rnd s = some r ∧
        r.PC = (if s.V X = NN then s.PC + 4 else s.PC + 2) ∧ sameMachine r s) ∧
    (pointsAt s (0x40 + X) NN →
      ∃ r, EmulateInstruction config rnd s = some r ∧
        r.PC = (if s.V X ≠ NN then s.PC + 4 else s.PC + 2) ∧ sameMachine r s) ∧
    (pointsAt s (0x50 + X) (16 * Y) →
      ∃ r, EmulateInstruction config rnd s = some r ∧
        r.PC = (if s.V X = s.V Y then s.PC + 4 else s.PC + 2) ∧ sameMachine r s) ∧
    (pointsAt s (0x90 + X) (16 * Y) →
      ∃ r, EmulateInstruction config rnd s = some r ∧
        r.PC = (if s.V X ≠ s.V Y then s.PC + 4 else s.PC + 2) ∧ sameMachine r s) := by
  have e4 : u16 (s.PC + 2 + 2) = s.PC + 4 := by unfold u16; omega
  refine ⟨?_, ?_, ?_, ?_⟩
  · intro h
    rw [emulate_byte config rnd 3 X NN (by omega) hX hNN h]
    simp only [execute, topNibble_byte 3 X NN (by omega) hX hNN]
    by_cases hc : s.V X = NN
    · simp only [hc, if_true, e4]
      exact ⟨_, rfl, rfl, rfl, rfl, rfl, rfl, rfl, rfl, rfl, rfl, rfl, rfl, rfl, rfl⟩
    · simp only [hc, if_false]
      exact ⟨_, rfl, rfl, rfl, rfl, rfl, rfl, rfl, rfl, rfl, rfl, rfl, rfl, rfl, rfl⟩
  · intro h
    rw [emulate_byte config rnd 4 X NN (by omega) hX hNN h]
    simp only [execute, topNibble_byte 4 X NN (by omega) hX hNN]
    by_cases hc : s.V X = NN
    · simp only [hc, ne_eq, not_true_eq_false, if_false]
      exact ⟨_, rfl, rfl, rfl, rfl, rfl, rfl, rfl, rfl, rfl, rfl, rfl, rfl, rfl, rfl⟩
    · simp only [hc, ne_eq, not_false_eq_true, if_true, e4]
      exact ⟨_, rfl, rfl, rfl, rfl, rfl, rfl, rfl, rfl, rfl, rfl, rfl, rfl, rfl, rfl⟩
  · intro h
    rw [emulate_byte config rnd 5 X (16 * Y) (by omega) hX (by omega) h]
    have hN : 16 * Y % 16 = 0 := by omega
    have hYY : 16 * Y / 16 = Y := by omega
    simp only [execute, topNibble_byte 5 X (16 * Y) (by omega) hX (by omega), hN, hYY,
      ne_eq, not_true_eq_false, if_false]
    by_cases hc : s.V X = s.V Y
    · simp only [hc, if_true, e4]
      exact ⟨_, rfl, rfl, rfl, rfl, rfl, rfl, rfl, rfl, rfl, rfl, rfl, rfl, rfl, rfl⟩
    · simp only [hc, if_false]
      exact ⟨_, rfl, rfl, rfl, rfl, rfl, rfl, rfl, rfl, rfl, rfl, rfl, rfl, rfl, rfl⟩
  · intro h
    rw [emulate_byte config rnd 9 X (16 * Y) (by omega) hX (by omega) h]
    have hN : 16 * Y % 16 = 0 := by omega
    have hYY : 16 * Y / 16 = Y := by omega
    simp only [execute, topNibble_byte 9 X (16 * Y) (by omega) hX (by omega), hN, hYY,
      ne_eq, not_true_eq_false, if_false]
    by_cases hc : s.V X = s.V Y
    · simp only [hc, not_true_eq_false, if_false]
      exact ⟨_, rfl, rfl, rfl, rfl, rfl, rfl, rfl, rfl, rfl, rfl, rfl, rfl, rfl, rfl⟩
    · simp only [hc, not_false_eq_true, if_true, e4]
      exact ⟨_, rfl, rfl, rfl, rfl, rfl, rfl, rfl, rfl, rfl, rfl, rfl, rfl, rfl, rfl⟩

/-- Witness for `skip_instructions`: one state per opcode (`3107`, `4107`,
`5120`, `9120`), each with `PC = 0x200`. -/
theorem skip_instructions_witness :
    (pointsAt (stateAt 0x31 7 (fun _ => 7)) (0x30 + 1) 7 ∧
      ∃ r, EmulateInstruction config64x32 0 (stateAt 0x31 7 (fun _ => 7)) = some r ∧
        r.PC = (if (stateAt 0x31 7 (fun _ => 7)).V 1 = 7
          then (stateAt 0x31 7 (fun _ => 7)).PC + 4
          else (stateAt 0x31 7 (fun _ => 7)).PC + 2) ∧
        sameMachine r (stateAt 0x31 7 (fun _ => 7))) ∧
    (pointsAt (stateAt 0x41 7 (fun _ => 7)) (0x40 + 1) 7 ∧
      ∃ r, EmulateInstruction config64x32 0 (stateAt 0x41 7 (fun _ => 7)) = some r ∧
        r.PC = (if (stateAt 0x41 7 (fun _ => 7)).V 1 ≠ 7
          then (stateAt 0x41 7 (fun _ => 7)).PC + 4
          else (stateAt 0x41 7 (fun _ => 7)).PC + 2) ∧
        sameMachine r (stateAt 0x41 7 (fun _ => 7))) ∧
    (pointsAt (stateAt 0x51 0x20 (fun i => i)) (0x50 + 1) (16 * 2) ∧
      ∃ r, EmulateInstruction config64x32 0 (stateAt 0x51 0x20 (fun i => i)) = some r ∧
        r.PC = (if (stateAt 0x51 0x20 (fun i => i)).V 1 = (stateAt 0x51 0x20 (fun i => i)).V 2
          then (stateAt 0x51 0x20 (fun i => i)).PC + 4
          else (stateAt 0x51 0x20 (fun i => i)).PC + 2) ∧
        sameMachine r (stateAt 0x51 0x20 (fun i => i))) ∧
    (pointsAt (stateAt 0x91 0x20 (fun i => i)) (0x90 + 1) (16 * 2) ∧
      ∃ r, EmulateInstruction config64x32 0 (stateAt 0x91 0x20 (fun i => i)) = some r ∧
        r.PC = (if (stateAt 0x91 0x20 (fun i => i)).V 1 ≠ (stateAt 0x91 0x20 (fun i => i)).V 2
          then (stateAt 0x91 0x20 (fun i => i)).PC + 4
          else (stateAt 0x91 0x20 (fun i => i)).PC + 2) ∧
        sameMachine r (stateAt 0x91 0x20 (fun i => i))) :=
  ⟨⟨by decide,
      (skip_instructions config64x32 0 (stateAt 0x31 7 (fun _ => 7)) 1 0 7
        (by decide) (by decide) (by decide) (by decide)).1 (by decide)⟩,
    ⟨by decide,
      (skip_instructions config64x32 0 (stateAt 0x41 7 (fun _ => 7)) 1 0 7
        (by decide) (by decide) (by decide) (by decide)).2.1 (by decide)⟩,
    ⟨by decide,
      (skip_instructions config64x32 0 (stateAt 0x51 0x20 (fun i => i)) 1 2 0
        (by decide) (by decide) (by decide) (by decide)).2.2.1 (by decide)⟩,
    ⟨by decide,
      (skip_instructions config64x32 0 (stateAt 0x91 0x20 (fun i => i)) 1 2 0
        (by decide) (by decide) (by decide) (by decide)).2.2.2 (by decide)⟩⟩

/-! ## C1: add with carry, `8XY4` -/

/-- C1 at a failing input.  Opcode `8014` with `V0 = 1`, `V1 = 1`, `VF = 1`:
the sum 2 does not exceed 255, `V0` becomes 2, and `VF` is still 1 after the
instruction, because the code writes `VF` only in the carry branch. -/
theorem add_8XY4_leaves_VF_set :
    pointsAt (stateAt 0x80 0x14 regsCarry) (0x80 + 0) (16 * 1 + 4) ∧
    (stateAt 0x80 0x14 regsCarry).V 0 + (stateAt 0x80 0x14 regsCarry).V 1 ≤ 255 ∧
    (EmulateInstruction config64x32 0 (stateAt 0x80 0x14 regsCarry)).map
      (fun r => (r.V 0, r.V 0xF)) = some (2, 1) := by
  decide

/-- What `8XY4` does, for `X` and `Y` other than `0xF` and 8-bit `Vx`, `Vy`:
`Vx` becomes `(Vx + Vy) mod 256`; `VF` becomes 1 on a carry and keeps its old
value otherwise. -/
theorem add_8XY4_behaviour (config : Config) (rnd : Nat) (s : Chip8) (X Y : Nat)
    (hX : X < 15) (hY : Y < 15) (ha : s.V X < 256) (hb : s.V Y < 256)
    (h : pointsAt s (0x80 + X) (16 * Y + 4)) :
    ∃ r, EmulateInstruction config rnd s = some r ∧
      r.V X = (s.V X + s.V Y) % 256 ∧
      r.V 0xF = (if s.V X + s.V Y > 255 then 1 else s.V 0xF) := by
  rw [emulate_byte config rnd 8 X (16 * Y + 4) (by omega) (by omega) (by omega) h]
  have hN : (16 * Y + 4) % 16 = 4 := by omega
  have hYY : (16 * Y + 4) / 16 = Y := by omega
  have hXF : (15 : Nat) ≠ X := by omega
  have hYF : Y ≠ 15 := by omega
  have hXF2 : X ≠ 15 := by omega
  simp only [execute, topNibble_byte 8 X (16 * Y + 4) (by omega) (by omega) (by omega),
    exec8, hN, hYY]
  by_cases hc : s.V X > sub8 0xFF (s.V Y)
  · have hc2 : s.V X + s.V Y > 255 := by unfold sub8 at hc; omega
    simp [hc, hc2, Function.update, hXF, hYF, hXF2, u8]
  · have hc2 : ¬ s.V X + s.V Y > 255 := by unfold sub8 at hc; omega
    simp [hc, hc2, Function.update, hXF, u8]

/-! ## C2: subtract with borrow, `8XY5` and `8XY7` -/

/-- C2 at a failing input, `Y = 0xF`.  Opcode `80F5` with `V0 = 10`, `VF = 5`
leaves `V0 = 9` (not `10 - 5 = 5`), and opcode `80F7` with `V0 = 5`, `VF = 10`
leaves `V0 = 252` (not `10 - 5 = 5`): the flag is stored in `VF` before the
subtraction reads `Vy`. -/
theorem sub_8XY5_8XY7_flag_clobbers_Vy :
    pointsAt (stateAt 0x80 0xF5 regsBorrowX) (0x80 + 0) (16 * 0xF + 5) ∧
    (EmulateInstruction config64x32 0 (stateAt 0x80 0xF5 regsBorrowX)).map
      (fun r => (r.V 0, r.V 0xF)) = some (9, 1) ∧
    pointsAt (stateAt 0x80 0xF7 regsBorrowY) (0x80 + 0) (16 * 0xF + 7) ∧
    (EmulateInstruction config64x32 0 (stateAt 0x80 0xF7 regsBorrowY)).map
      (fun r => (r.V 0, r.V 0xF)) = some (252, 1) := by
  decide

/-- What `8XY5` and `8XY7` do when neither `X` nor `Y` is `0xF`, for 8-bit
`Vx`, `Vy`: the difference mod 256 in `Vx`, and `VF = 1` exactly when the
minuend is at least the subtrahend. -/
theorem sub_8XY5_8XY7_behaviour (config : Config) (rnd : Nat) (s : Chip8) (X Y : Nat)
    (hX : X < 15) (hY : Y < 15) (ha : s.V X < 256) (hb : s.V Y < 256) :
    (pointsAt s (0x80 + X) (16 * Y + 5) →
      ∃ r, EmulateInstruction config rnd s = some r ∧
        r.V X = (s.V X + 256 - s.V Y) % 256 ∧
        r.V 0xF = (if s.V X ≥ s.V Y then 1 else 0)) ∧
    (pointsAt s (0x80 + X) (16 * Y + 7) →
      ∃ r, EmulateInstruction config rnd s = some r ∧
        r.V X = (s.V Y + 256 - s.V X) % 256 ∧
        r.V 0xF = (if s.V Y ≥ s.V X then 1 else 0)) := by
  have hXF : (15 : Nat) ≠ X := by omega
  have hYF : Y ≠ 15 := by omega
  have hXF2 : X ≠ 15 := by omega
  have hm : s.V Y % 256 = s.V Y := Nat.mod_eq_of_lt hb
  have hm2 : s.V X % 256 = s.V X := Nat.mod_eq_of_lt ha
  constructor
  · intro h
    rw [emulate_byte config rnd 8 X (16 * Y + 5) (by omega) (by omega) (by omega) h]
    have hN : (16 * Y + 5) % 16 = 5 := by omega
    have hYY : (16 * Y + 5) / 16 = Y := by omega
    simp only [execute, topNibble_byte 8 X (16 * Y + 5) (by omega) (by omega) (by omega),
      exec8, hN, hYY]
    by_cases hc : s.V X ≥ s.V Y
    · simp [hc, Function.update, hXF, hYF, hXF2, sub8, hm]
    · simp [hc, Function.update, hXF, hYF, hXF2, sub8, hm]
  · intro h
    rw [emulate_byte config rnd 8 X (16 * Y + 7) (by omega) (by omega) (by omega) h]
    have hN : (16 * Y + 7) % 16 = 7 := by omega
    have hYY : (16 * Y + 7) / 16 = Y := by omega
    simp only [execute, topNibble_byte 8 X (16 * Y + 7) (by omega) (by omega) (by omega),
      exec8, hN, hYY]
    by_cases hc : s.V Y ≥ s.V X
    · simp [hc, Function.update, hXF, hYF, hXF2, sub8, hm2]
    · simp [hc, Function.update, hXF, hYF, hXF2, sub8, hm2]

/-! ## C10: timer tick -/

/-- C10.  `UpdateTimers` replaces each timer by its value minus 1 when it is
positive and leaves it at 0 when it is 0, each independently of the other, and
changes no other field; a timer at 0 stays 0 and a timer at 1 becomes 0. -/
theorem updateTimers_spec (c : Chip8) :
    UpdateTimers c =
      { c with
        DelayTimer := if c.DelayTimer > 0 then c.DelayTimer - 1 else 0
        SoundTimer := if c.SoundTimer > 0 then c.SoundTimer - 1 else 0 } ∧
    (UpdateTimers { c with DelayTimer := 0 }).DelayTimer = 0 ∧
    (UpdateTimers { c with DelayTimer := 1 }).DelayTimer = 0 ∧
    (UpdateTimers { c with SoundTimer := 0 }).SoundTimer = 0 ∧
    (UpdateTimers { c with SoundTimer := 1 }).SoundTimer = 0 := by
  refine ⟨?_, ?_, ?_, ?_, ?_⟩
  · unfold UpdateTimers
    by_cases hd : c.DelayTimer > 0 <;> by_cases hs : c.SoundTimer > 0
    · simp [hd, hs]
    · have : c.SoundTimer = 0 := by omega
      simp [hd, hs, this]
    · have : c.DelayTimer = 0 := by omega
      simp [hd, hs, this]
    · have h1 : c.DelayTimer = 0 := by omega
      have h2 : c.SoundTimer = 0 := by omega
      cases c; simp_all
  · unfold UpdateTimers; by_cases hs : c.SoundTimer > 0 <;> simp [hs]
  · unfold UpdateTimers; by_cases hs : c.SoundTimer > 0 <;> simp [hs]
  · unfold UpdateTimers; by_cases hd : c.DelayTimer > 0 <;> simp [hd]
  · unfold UpdateTimers; by_cases hd : c.DelayTimer > 0 <;> simp [hd]

/-! ## C7: blocking key wait, `FX0A` -/

/-- With no key pressed, one call at `FX0A` returns the input state with only
the decoded `Instruction` replaced. -/
theorem keyWait_idle (config : Config) (rnd : Nat) (s : Chip8) (X : Nat) (hX : X < 16)
    (h : pointsAt s (0xF0 + X) 0x0A) (hk : ∀ k, k < 16 → s.KeyPad k = false) :
    EmulateInstruction config rnd s =
      some { s with Instruction := decode (256 * (0xF0 + X) + 0x0A) } := by
  rw [EmulateInstruction_of_pointsAt config rnd h (by omega) (by omega)]
  have hnone : (List.range sixteen).find? (fun i => s.KeyPad i) = none := by
    rw [List.find?_eq_none]
    intro k hk'
    have : k < 16 := by simpa [sixteen] using hk'
    simp [hk k this]
  have hpc : sub16 (s.PC + 2) 2 = s.PC := by
    have := h.1; unfold sub16 ramSize at *; omega
  have hd := decode_byte 15 X 0x0A hX (by omega)
  have ht := topNibble_byte 15 X 0x0A (by omega) hX (by omega)
  simp only [fetched, execute, show (0xF0 : Nat) = 16 * 15 from rfl, hd, ht, execF, hnone, hpc]

theorem keyWait_idle_runN (config : Config) (rnd : Nat → Nat) (s : Chip8) (X : Nat)
    (hX : X < 16) (h : pointsAt s (0xF0 + X) 0x0A)
    (hk : ∀ k, k < 16 → s.KeyPad k = false) (n : Nat) :
    ∃ r, runN config rnd n s = some r ∧ r.PC = s.PC ∧ sameMachine r s := by
  induction n with
  | zero => exact ⟨s, rfl, rfl, rfl, rfl, rfl, rfl, rfl, rfl, rfl, rfl, rfl, rfl, rfl, rfl⟩
  | succ n ih =>
    obtain ⟨r, hr, hpc, hs⟩ := ih
    obtain ⟨h1, h2, h3, h4, h5, h6, h7, h8, h9, h10, h11, h12⟩ := hs
    have hp : pointsAt r (0xF0 + X) 0x0A := by
      unfold pointsAt at *; rw [hpc, h2]; exact h
    have hkr : ∀ k, k < 16 → r.KeyPad k = false := by rw [h10]; exact hk
    refine ⟨{ r with Instruction := decode (256 * (0xF0 + X) + 0x0A) }, ?_, hpc,
      h1, h2, h3, h4, h5, h6, h7, h8, h9, h10, h11, h12⟩
    simp only [runN, hr, Option.some_bind]
    exact keyWait_idle config (rnd n) r X hX hp hkr

/-- C7.  At `FX0A`: with no key pressed, one call (and any number `n` of
repeated calls) returns a state with the same `PC` and the same registers,
memory, `I`, stack, timers, display and keypad; with a key pressed, `PC`
becomes the old `PC + 2` and `Vx` the smallest `k` with `KeyPad[k]` true. -/
theorem keyWait_FX0A (config : Config) (rnd : Nat → Nat) (s : Chip8) (X : Nat)
    (hX : X < 16) (h : pointsAt s (0xF0 + X) 0x0A) :
    ((∀ k, k < 16 → s.KeyPad k = false) →
      (∃ r, EmulateInstruction config (rnd 0) s = some r ∧ r.PC = s.PC ∧ sameMachine r s) ∧
      ∀ n, ∃ r, runN config rnd n s = some r ∧ r.PC = s.PC ∧ sameMachine r s) ∧
    (∀ k, k < 16 → s.KeyPad k = true → (∀ j, j < k → s.KeyPad j = false) →
      ∃ r, EmulateInstruction config (rnd 0) s = some r ∧ r.PC = s.PC + 2 ∧ r.V X = k) := by
  constructor
  · intro hk
    refine ⟨?_, keyWait_idle_runN config rnd s X hX h hk⟩
    rw [keyWait_idle config (rnd 0) s X hX h hk]
    exact ⟨_, rfl, rfl, rfl, rfl, rfl, rfl, rfl, rfl, rfl, rfl, rfl, rfl, rfl, rfl⟩
  · intro k hk hkt hmin
    rw [EmulateInstruction_of_pointsAt config (rnd 0) h (by omega) (by omega)]
    have hsome : (List.range sixteen).find? (fun i => s.KeyPad i) = some k := by
      rw [List.find?_range_eq_some]
      refine ⟨hkt, by simpa [sixteen] using hk, ?_⟩
      intro j hj
      simp [hmin j hj]
    have hd := decode_byte 15 X 0x0A hX (by omega)
    have ht := topNibble_byte 15 X 0x0A (by omega) hX (by omega)
    have hk8 : u8 k = k := by unfold u8; omega
    simp only [fetched, execute, show (0xF0 : Nat) = 16 * 15 from rfl, hd, ht, execF, hsome,
      hk8]
    exact ⟨_, rfl, rfl, by simp⟩

/-- Witness for `keyWait_FX0A`: no key pressed, and keys 4 and 9 pressed. -/
theorem keyWait_FX0A_witness :
    pointsAt (keyState (fun _ => false)) (0xF0 + 3) 0x0A ∧
    (∀ k, k < 16 → (keyState (fun _ => false)).KeyPad k = false) ∧
    ((∃ r, EmulateInstruction config64x32 0 (keyState (fun _ => false)) = some r ∧
        r.PC = (keyState (fun _ => false)).PC ∧ sameMachine r (keyState (fun _ => false))) ∧
      ∀ n, ∃ r, runN config64x32 (fun _ => 0) n (keyState (fun _ => false)) = some r ∧
        r.PC = (keyState (fun _ => false)).PC ∧ sameMachine r (keyState (fun _ => false))) ∧
    pointsAt (keyState (fun i => i == 4 || i == 9)) (0xF0 + 3) 0x0A ∧
    (keyState (fun i => i == 4 || i == 9)).KeyPad 4 = true ∧
    ∃ r, EmulateInstruction config64x32 0 (keyState (fun i => i == 4 || i == 9)) = some r ∧
      r.PC = (keyState (fun i => i == 4 || i == 9)).PC + 2 ∧ r.V 3 = 4 :=
  ⟨by decide, by decide,
    (keyWait_FX0A config64x32 (fun _ => 0) (keyState (fun _ => false)) 3 (by decide)
      (by decide)).1 (by decide),
    by decide, by decide,
    (keyWait_FX0A config64x32 (fun _ => 0) (keyState (fun i => i == 4 || i == 9)) 3
      (by decide) (by decide)).2 4 (by decide) (by decide) (by decide)⟩

/-! ## C8: binary-coded decimal store, `FX33` -/

/-- C8.  At `FX33` with `Vx = v` an 8-bit value and `I + 2 ≤ 4095`: afterwards
`Ram[I]`, `Ram[I+1]`, `Ram[I+2]` are the hundreds, tens and units digits of
`v` (`100 h + 10 t + u = v`, `h ≤ 2`, `t ≤ 9`, `u ≤ 9`; they are 1, 5, 7 when
`v = 157`), and every other memory byte is unchanged. -/
theorem bcd_FX33 (config : Config) (rnd : Nat) (s : Chip8) (X : Nat) (hX : X < 16)
    (h : pointsAt s (0xF0 + X) 0x33) (hv : s.V X < 256) (hI : s.I + 2 ≤ 4095) :
    ∃ r, EmulateInstruction config rnd s = some r ∧
      100 * r.Ram s.I + 10 * r.Ram (s.I + 1) + r.Ram (s.I + 2) = s.V X ∧
      r.Ram s.I ≤ 2 ∧ r.Ram (s.I + 1) ≤ 9 ∧ r.Ram (s.I + 2) ≤ 9 ∧
      (s.V X = 157 → r.Ram s.I = 1 ∧ r.Ram (s.I + 1) = 5 ∧ r.Ram (s.I + 2) = 7) ∧
      ∀ a, a ≠ s.I → a ≠ s.I + 1 → a ≠ s.I + 2 → r.Ram a = s.Ram a := by
  rw [EmulateInstruction_of_pointsAt config rnd h (by omega) (by omega)]
  have hd := decode_byte 15 X 0x33 hX (by omega)
  have ht := topNibble_byte 15 X 0x33 (by omega) hX (by omega)
  have e0 : s.I < ramSize := by unfold ramSize; omega
  have e1 : u16 (s.I + 1) = s.I + 1 := by unfold u16; omega
  have e2 : u16 (s.I + 2) = s.I + 2 := by unfold u16; omega
  have l1 : s.I + 1 < ramSize := by unfold ramSize; omega
  have l2 : s.I + 2 < ramSize := by unfold ramSize; omega
  simp only [fetched, execute, show (0xF0 : Nat) = 16 * 15 from rfl, hd, ht, execF, e0, e1, e2,
    l1, l2, if_true]
  refine ⟨_, rfl, ?_, ?_, ?_, ?_, ?_, ?_⟩
  · simp [Function.update]; omega
  · simp [Function.update]; omega
  · simp [Function.update]; omega
  · simp [Function.update]; omega
  · intro hv157; simp [Function.update, hv157]
  · intro a h0 h1 h2; simp [Function.update, h0, h1, h2]

/-- Witness for `bcd_FX33`: `V2 = 157`, `I = 0x300`. -/
theorem bcd_FX33_witness :
    pointsAt bcdState (0xF0 + 2) 0x33 ∧ bcdState.V 2 = 157 ∧
    ∃ r, EmulateInstruction config64x32 0 bcdState = some r ∧
      100 * r.Ram bcdState.I + 10 * r.Ram (bcdState.I + 1) + r.Ram (bcdState.I + 2)
        = bcdState.V 2 ∧
      r.Ram bcdState.I ≤ 2 ∧ r.Ram (bcdState.I + 1) ≤ 9 ∧ r.Ram (bcdState.I + 2) ≤ 9 ∧
      (bcdState.V 2 = 157 →
        r.Ram bcdState.I = 1 ∧ r.Ram (bcdState.I + 1) = 5 ∧ r.Ram (bcdState.I + 2) = 7) ∧
      ∀ a, a ≠ bcdState.I → a ≠ bcdState.I + 1 → a ≠ bcdState.I + 2 →
        r.Ram a = bcdState.Ram a :=
  ⟨by decide, by decide,
    bcd_FX33 config64x32 0 bcdState 2 (by decide) (by decide) (by decide) (by decide)⟩

/-! ## C9: register dump and load, `FX55` / `FX65` -/

/-- The `FX55` loop run for `n` iterations inside memory: cells `I .. I+n-1`
receive `V0 .. V(n-1)`, nothing else changes. -/
theorem forLoop_dumpStep (c : Chip8) (n : Nat) (h : c.I + n ≤ 4096) :
    forLoop dumpStep n c =
      some { c with
        Ram := fun a => if c.I ≤ a ∧ a < c.I + n then c.V (a - c.I) else c.Ram a } := by
  induction n with
  | zero =>
    have e : (fun a => if c.I ≤ a ∧ a < c.I + 0 then c.V (a - c.I) else c.Ram a) = c.Ram := by
      funext a
      have hb : ¬ (c.I ≤ a ∧ a < c.I + 0) := by omega
      simp only [hb, if_false]
    simp only [forLoop, e]
  | succ n ih =>
    have e : u16 (c.I + u16 n) = c.I + n := by unfold u16; omega
    have l : c.I + n < ramSize := by unfold ramSize; omega
    simp only [forLoop, ih (by omega), Option.some_bind, dumpStep, e, l, if_true]
    congr 2
    funext a
    by_cases ha : a = c.I + n
    · subst ha; simp
    · simp only [Function.update, ha, dite_false]
      by_cases hb : c.I ≤ a ∧ a < c.I + n
      · have hb2 : c.I ≤ a ∧ a < c.I + (n + 1) := by omega
        simp only [hb, hb2, and_self, if_true]
      · have hb2 : ¬ (c.I ≤ a ∧ a < c.I + (n + 1)) := by omega
        simp only [hb, hb2, if_false]

/-- The `FX65` loop run for `n` iterations inside memory: registers
`V0 .. V(n-1)` receive cells `I .. I+n-1`, nothing else changes. -/
theorem forLoop_loadStep (c : Chip8) (n : Nat) (h : c.I + n ≤ 4096) :
    forLoop loadStep n c =
      some { c with V := fun i => if i < n then c.Ram (c.I + i) else c.V i } := by
  induction n with
  | zero =>
    simp only [forLoop]
    congr 1
  | succ n ih =>
    have e : u16 (c.I + u16 n) = c.I + n := by unfold u16; omega
    have l : c.I + n < ramSize := by unfold ramSize; omega
    simp only [forLoop, ih (by omega), Option.some_bind, loadStep, e, l, if_true]
    congr 2
    funext i
    by_cases hi : i = n
    · subst hi; simp
    · simp only [Function.update, hi, dite_false]
      by_cases hb : i < n
      · have hb2 : i < n + 1 := by omega
        simp only [hb, hb2, if_true]
      · have hb2 : ¬ i < n + 1 := by omega
        simp only [hb, hb2, if_false]

/-- Effect of `FX55` with `I + X ≤ 4095`. -/
theorem emulate_FX55 (config : Config) (rnd : Nat) (s : Chip8) (X : Nat) (hX : X < 16)
    (h : pointsAt s (0xF0 + X) 0x55) (hI : s.I + X ≤ 4095) :
    EmulateInstruction config rnd s =
      some { fetched s (256 * (0xF0 + X) + 0x55) with
        Ram := fun a => if s.I ≤ a ∧ a < s.I + (X + 1) then s.V (a - s.I) else s.Ram a } := by
  rw [EmulateInstruction_of_pointsAt config rnd h (by omega) (by omega)]
  have hd := decode_byte 15 X 0x55 hX (by omega)
  have ht := topNibble_byte 15 X 0x55 (by omega) hX (by omega)
  simp only [fetched, execute, show (0xF0 : Nat) = 16 * 15 from rfl, hd, ht, execF]
  rw [forLoop_dumpStep _ _ (by simpa using (by omega : s.I + (X + 1) ≤ 4096))]

/-- Effect of `FX65` with `I + X ≤ 4095`. -/
theorem emulate_FX65 (config : Config) (rnd : Nat) (s : Chip8) (X : Nat) (hX : X < 16)
    (h : pointsAt s (0xF0 + X) 0x65) (hI : s.I + X ≤ 4095) :
    EmulateInstruction config rnd s =
      some { fetched s (256 * (0xF0 + X) + 0x65) with
        V := fun i => if i < X + 1 then s.Ram (s.I + i) else s.V i } := by
  rw [EmulateInstruction_of_pointsAt config rnd h (by omega) (by omega)]
  have hd := decode_byte 15 X 0x65 hX (by omega)
  have ht := topNibble_byte 15 X 0x65 (by omega) hX (by omega)
  simp only [fetched, execute, show (0xF0 : Nat) = 16 * 15 from rfl, hd, ht, execF]
  rw [forLoop_loadStep _ _ (by simpa using (by omega : s.I + (X + 1) ≤ 4096))]

/-- C9.  Let `FX55` run on `s1` with `I + X ≤ 4095`, giving `r1`.  For every
state `s2` whose memory and `I` are those of `r1` (registers arbitrary) and
whose `PC` points at `FX65`, running `FX65` gives a state in which every
register `V0 .. VX` has the value it had in `s1`, at the time of the dump. -/
theorem dump_load_roundtrip (config : Config) (rnd1 rnd2 : Nat) (s1 : Chip8) (X : Nat)
    (hX : X < 16) (h1 : pointsAt s1 (0xF0 + X) 0x55) (hI : s1.I + X ≤ 4095) :
    ∃ r1, EmulateInstruction config rnd1 s1 = some r1 ∧
      ∀ s2 : Chip8, s2.Ram = r1.Ram → s2.I = r1.I → pointsAt s2 (0xF0 + X) 0x65 →
        ∃ r2, EmulateInstruction config rnd2 s2 = some r2 ∧
          ∀ i, i ≤ X → r2.V i = s1.V i := by
  refine ⟨_, emulate_FX55 config rnd1 s1 X hX h1 hI, ?_⟩
  intro s2 hRam hIeq h2
  have hI2 : s2.I = s1.I := by rw [hIeq]; rfl
  refine ⟨_, emulate_FX65 config rnd2 s2 X hX h2 (by omega), ?_⟩
  intro i hi
  have hi1 : i < X + 1 := by omega
  have hr : s1.I ≤ s1.I + i ∧ s1.I + i < s1.I + (X + 1) := by omega
  simp only [hi1, if_true, hRam, hI2, fetched, hr, and_self, Nat.add_sub_cancel_left]

/-- Witness for `dump_load_roundtrip`: dump `V0..V2 = 11, 22, 33` at `0x300`,
clear all registers, load them back. -/
theorem dump_load_roundtrip_witness :
    pointsAt dumpState (0xF0 + 2) 0x55 ∧ dumpState.I + 2 ≤ 4095 ∧
    ∃ r1, EmulateInstruction config64x32 0 dumpState = some r1 ∧
      ∃ r2, EmulateInstruction config64x32 0 { r1 with V := fun _ => 0 } = some r2 ∧
        ∀ i, i ≤ 2 → r2.V i = dumpState.V i := by
  refine ⟨by decide, by decide, ?_⟩
  obtain ⟨r1, hr1, hrest⟩ :=
    dump_load_roundtrip config64x32 0 0 dumpState 2 (by decide) (by decide) (by decide)
  refine ⟨r1, hr1, hrest { r1 with V := fun _ => 0 } rfl rfl ?_⟩
  have e : (EmulateInstruction config64x32 0 dumpState).map
      (fun r => (r.PC, r.Ram 0x202, r.Ram 0x203)) = some (0x202, 0xF2, 0x65) := by decide
  rw [hr1] at e
  simp only [Option.map_some', Option.some.injEq, Prod.mk.injEq] at e
  obtain ⟨e1, e2, e3⟩ := e
  refine ⟨?_, ?_, ?_⟩
  · show r1.PC + 1 < ramSize
    rw [e1]; decide
  · show r1.Ram r1.PC = 0xF0 + 2
    rw [e1, e2]
  · show r1.Ram (r1.PC + 1) = 0x65
    rw [e1, e3]

/-! ## Drawing, `DXYN` -/

/-- One sprite pixel leaves memory and `I` alone. -/
theorem drawPixel_frame (config : Config) (x y sp i j : Nat) (c : Chip8) :
    (drawPixel config x y sp i j c).Ram = c.Ram ∧ (drawPixel config x y sp i j c).I = c.I := by
  unfold drawPixel
  by_cases hb : spriteBit sp j = true
  · by_cases hp : cellIndex config x y i j < displaySize
    · by_cases hd : c.Display (cellIndex config x y i j) = true <;> simp [hb, hp, hd]
    · simp [hb, hp]
  · simp [hb]

/-- The display after one sprite pixel: the addressed cell is inverted when
the sprite bit is set and the index is inside the display. -/
theorem drawPixel_display (config : Config) (x y sp i j : Nat) (c : Chip8) (p : Nat) :
    (drawPixel config x y sp i j c).Display p =
      (c.Display p ^^ (spriteBit sp j && decide (cellIndex config x y i j < displaySize)
        && decide (cellIndex config x y i j = p))) := by
  unfold drawPixel
  by_cases hb : spriteBit sp j = true
  · by_cases hp : cellIndex config x y i j < displaySize
    · by_cases hq : cellIndex config x y i j = p
      · subst hq
        by_cases hd : c.Display (cellIndex config x y i j) = true <;>
          simp [hb, hp, hd, Function.update]
      · have hq2 : p ≠ cellIndex config x y i j := fun e => hq e.symm
        by_cases hd : c.Display (cellIndex config x y i j) = true <;>
          simp [hb, hp, hd, hq, hq2, Function.update]
    · simp [hb, hp]
  · simp [hb]

/-- The inner loop of `DXYN` always completes; it leaves memory and `I` alone
and inverts each display cell according to `rowParity`. -/
theorem drawPixels_loop (config : Config) (x y sp i n : Nat) (c : Chip8) :
    ∃ r, forLoop (fun j d => some (drawPixel config x y sp i j d)) n c = some r ∧
      r.Ram = c.Ram ∧ r.I = c.I ∧
      ∀ p, r.Display p = (c.Display p ^^ rowParity config x y sp i n p) := by
  induction n with
  | zero => exact ⟨c, rfl, rfl, rfl, fun p => by simp [rowParity]⟩
  | succ n ih =>
    obtain ⟨r, hr, hRam, hI, hD⟩ := ih
    refine ⟨drawPixel config x y sp i n r, ?_, ?_, ?_, ?_⟩
    · simp only [forLoop, hr, Option.some_bind]
    · rw [(drawPixel_frame config x y sp i n r).1, hRam]
    · rw [(drawPixel_frame config x y sp i n r).2, hI]
    · intro p
      rw [drawPixel_display, hD p, rowParity, Bool.xor_assoc]

/-- The outer loop of `DXYN` completes when the sprite lies inside memory; it
leaves memory and `I` alone and inverts each display cell according to
`spriteParity`. -/
theorem drawRows_loop (config : Config) (x y n : Nat) (c : Chip8) (hI : c.I + n ≤ 4096) :
    ∃ r, forLoop (drawRow config x y) n c = some r ∧
      r.Ram = c.Ram ∧ r.I = c.I ∧
      ∀ p, r.Display p = (c.Display p ^^ spriteParity config x y c.Ram c.I n p) := by
  induction n with
  | zero => exact ⟨c, rfl, rfl, rfl, fun p => by simp [spriteParity]⟩
  | succ n ih =>
    obtain ⟨r, hr, hRam, hIr, hD⟩ := ih (by omega)
    have e : u16 (r.I + u16 n) = c.I + n := by rw [hIr]; unfold u16; omega
    have l : c.I + n < ramSize := by unfold ramSize; omega
    obtain ⟨r2, hr2, hRam2, hI2, hD2⟩ := drawPixels_loop config x y (c.Ram (c.I + n)) n 8 r
    refine ⟨r2, ?_, hRam2.trans hRam, hI2.trans hIr, ?_⟩
    · rw [forLoop, hr, Option.some_bind, drawRow]
      simp only [e, l, if_true, hRam, hr2]
    · intro p
      rw [hD2 p, hD p, spriteParity, Bool.xor_assoc]

/-- The parity of toggles depends on memory only through the sprite rows. -/
theorem spriteParity_congr (config : Config) (x y : Nat) (ram1 ram2 : Nat → Nat) (I n : Nat)
    (h : ∀ i, i < n → ram2 (I + i) = ram1 (I + i)) (p : Nat) :
    spriteParity config x y ram2 I n p = spriteParity config x y ram1 I n p := by
  induction n with
  | zero => rfl
  | succ n ih =>
    rw [spriteParity, spriteParity, ih (fun i hi => h i (by omega)), h n (by omega)]

/-- Effect of `DXYN` on the display under the 64x32 configuration, for a
sprite inside memory. -/
theorem emulate_DXYN_display (rnd : Nat) (s : Chip8) (X Y N : Nat)
    (hX : X < 16) (hY : Y < 16) (hN : N < 16)
    (h : pointsAt s (0xD0 + X) (16 * Y + N)) (hI : s.I + N ≤ 4096) :
    ∃ r, EmulateInstruction config64x32 rnd s = some r ∧
      ∀ p, r.Display p =
        (s.Display p ^^ spriteParity config64x32 (s.V X % 64) (s.V Y % 32) s.Ram s.I N p) := by
  rw [emulate_byte config64x32 rnd 13 X (16 * Y + N) (by omega) hX (by omega) h]
  have hN2 : (16 * Y + N) % 16 = N := by omega
  have hYY : (16 * Y + N) / 16 = Y := by omega
  have hw : ¬ u8 config64x32.WindowWidth = 0 := by decide
  have hh : ¬ u8 config64x32.WindowHeight = 0 := by decide
  have hw2 : u8 config64x32.WindowWidth = 64 := by decide
  have hh2 : u8 config64x32.WindowHeight = 32 := by decide
  simp only [execute, topNibble_byte 13 X (16 * Y + N) (by omega) hX (by omega), execD, hN2,
    hYY, hw, hh, if_false, hw2, hh2]
  obtain ⟨r, hr, _, _, hD⟩ := drawRows_loop config64x32 (s.V X % 64) (s.V Y % 32) N
    { s with
      PC := s.PC + 2
      Instruction :=
        { OpCode := 256 * (16 * 13 + X) + (16 * Y + N), NNN := 256 * X + (16 * Y + N),
          NN := 16 * Y + N, N := N, X := X, Y := Y }
      V := Function.update s.V 0xF 0 } hI
  rw [hr]
  exact ⟨_, rfl, hD⟩

/-! ## C4: drawing twice restores the display -/

/-- C4.  Under the 64x32 configuration let `DXYN` (any `N` in `0..15`, sprite
inside memory: `I + N ≤ 4096`) run on `s1`, giving `r1`.  For every state `s2`
that again points at `DXYN`, has the same `Vx`, `Vy`, `I` and the same `N`
sprite bytes at `I`, and whose display is the one `r1` has, running `DXYN`
gives a state in which each of the 2048 display cells has the value it had in
`s1`, before the first draw. -/
theorem draw_twice_restores (rnd1 rnd2 : Nat) (s1 : Chip8) (X Y N : Nat)
    (hX : X < 16) (hY : Y < 16) (hN : N < 16)
    (h1 : pointsAt s1 (0xD0 + X) (16 * Y + N)) (hI : s1.I + N ≤ 4096) :
    ∃ r1, EmulateInstruction config64x32 rnd1 s1 = some r1 ∧
      ∀ s2 : Chip8, pointsAt s2 (0xD0 + X) (16 * Y + N) →
        s2.V X = s1.V X → s2.V Y = s1.V Y → s2.I = s1.I →
        (∀ i, i < N → s2.Ram (s1.I + i) = s1.Ram (s1.I + i)) →
        (∀ p, p < 2048 → s2.Display p = r1.Display p) →
        ∃ r2, EmulateInstruction config64x32 rnd2 s2 = some r2 ∧
          ∀ p, p < 2048 → r2.Display p = s1.Display p := by
  obtain ⟨r1, hr1, hD1⟩ := emulate_DXYN_display rnd1 s1 X Y N hX hY hN h1 hI
  refine ⟨r1, hr1, ?_⟩
  intro s2 h2 hVx hVy hIeq hRam hDisp
  obtain ⟨r2, hr2, hD2⟩ := emulate_DXYN_display rnd2 s2 X Y N hX hY hN h2 (by omega)
  refine ⟨r2, hr2, ?_⟩
  intro p hp
  rw [hD2 p, hDisp p hp, hD1 p, hVx, hVy, hIeq,
    spriteParity_congr config64x32 _ _ s1.Ram s2.Ram s1.I N hRam p]
  cases s1.Display p <;>
    cases spriteParity config64x32 (s1.V X % 64) (s1.V Y % 32) s1.Ram s1.I N p <;> rfl

/-- Witness for `draw_twice_restores`: the two draws are the two consecutive
`D012` instructions of `drawState`. -/
theorem draw_twice_restores_witness :
    pointsAt drawState (0xD0 + 0) (16 * 1 + 2) ∧ drawState.I + 2 ≤ 4096 ∧
    ∃ r1, EmulateInstruction config64x32 0 drawState = some r1 ∧
      ∃ r2, EmulateInstruction config64x32 0 r1 = some r2 ∧
        ∀ p, p < 2048 → r2.Display p = drawState.Display p := by
  refine ⟨by decide, by decide, ?_⟩
  obtain ⟨r1, hr1, hrest⟩ :=
    draw_twice_restores 0 0 drawState 0 1 2 (by decide) (by decide) (by decide) (by decide)
      (by decide)
  have e : (EmulateInstruction config64x32 0 drawState).map
      (fun r => (r.PC, r.Ram 0x202, r.Ram 0x203, r.V 0, r.V 1, r.I, r.Ram 0x300, r.Ram 0x301))
      = some (0x202, 0xD0, 0x12, 60, 5, 0x300, 0xFF, 0x81) := by rfl
  rw [hr1] at e
  simp only [Option.map_some', Option.some.injEq, Prod.mk.injEq] at e
  obtain ⟨e1, e2, e3, e4, e5, e6, e7, e8⟩ := e
  refine ⟨r1, hr1, hrest r1 ⟨?_, ?_, ?_⟩ e4 e5 e6 ?_ (fun p _ => rfl)⟩
  · show r1.PC + 1 < ramSize
    rw [e1]; decide
  · show r1.Ram r1.PC = 0xD0 + 0
    rw [e1, e2]
  · show r1.Ram (r1.PC + 1) = 16 * 1 + 2
    rw [e1, e3]
  · intro i hi
    have hi2 : i = 0 ∨ i = 1 := by omega
    rcases hi2 with rfl | rfl
    · exact e7
    · exact e8

/-! ## The collision flag of a sprite row -/

/-- The flag after one sprite pixel: set to 1 when the pixel inverts a cell
that was on, otherwise unchanged. -/
theorem drawPixel_flag (config : Config) (x y sp i j : Nat) (c : Chip8) :
    (drawPixel config x y sp i j c).V 0xF =
      (if (spriteBit sp j && decide (cellIndex config x y i j < displaySize)
          && c.Display (cellIndex config x y i j)) = true then 1 else c.V 0xF) := by
  unfold drawPixel
  by_cases hb : spriteBit sp j = true
  · by_cases hp : cellIndex config x y i j < displaySize
    · by_cases hd : c.Display (cellIndex config x y i j) = true <;> simp [hb, hp, hd]
    · simp [hb, hp]
  · simp [hb]

/-- A cell that none of the first `n` sprite bits addresses is not toggled. -/
theorem rowParity_of_not_hit (config : Config) (x y sp i n p : Nat)
    (h : ∀ j, j < n → cellIndex config x y i j ≠ p) :
    rowParity config x y sp i n p = false := by
  induction n with
  | zero => rfl
  | succ n ih =>
    rw [rowParity, ih (fun j hj => h j (by omega))]
    simp [h n (by omega)]

/-- When distinct bits address distinct cells, the cell of a set bit inside
the display is toggled. -/
theorem rowParity_of_hit (config : Config) (x y sp i n : Nat) (hn : n ≤ 8)
    (hinj : ∀ j k, j < 8 → k < 8 → cellIndex config x y i j = cellIndex config x y i k → j = k)
    (j : Nat) (hj : j < n) (hb : spriteBit sp j = true)
    (hp : cellIndex config x y i j < displaySize) :
    rowParity config x y sp i n (cellIndex config x y i j) = true := by
  induction n with
  | zero => omega
  | succ n ih =>
    rw [rowParity]
    by_cases hjn : j = n
    · subst hjn
      rw [rowParity_of_not_hit config x y sp i j _
        (fun k hk e => by have := hinj k j (by omega) (by omega) e; omega)]
      simp [hb, hp]
    · rw [ih (by omega) (by omega)]
      have hne : cellIndex config x y i n ≠ cellIndex config x y i j := by
        intro e
        have := hinj n j (by omega) (by omega) e
        omega
      simp [hne]

/-- The inner loop of `DXYN` over the first `n` bits, when distinct bits
address distinct cells: display as in `drawPixels_loop`, and `VF` is 1 when
one of the set bits addressed a cell that was on before the loop, otherwise
unchanged. -/
theorem drawPixels_flag (config : Config) (x y sp i n : Nat) (hn : n ≤ 8)
    (hinj : ∀ j k, j < 8 → k < 8 → cellIndex config x y i j = cellIndex config x y i k → j = k)
    (c : Chip8) :
    ∃ r, forLoop (fun j d => some (drawPixel config x y sp i j d)) n c = some r ∧
      (∀ p, r.Display p = (c.Display p ^^ rowParity config x y sp i n p)) ∧
      r.V 0xF =
        (if (List.range n).any (fun j =>
            spriteBit sp j && decide (cellIndex config x y i j < displaySize)
              && c.Display (cellIndex config x y i j)) = true
          then 1 else c.V 0xF) := by
  induction n with
  | zero => exact ⟨c, rfl, fun p => by simp [rowParity], by simp⟩
  | succ n ih =>
    obtain ⟨r, hr, hD, hF⟩ := ih (by omega)
    refine ⟨drawPixel config x y sp i n r, ?_, ?_, ?_⟩
    · rw [forLoop, hr, Option.some_bind]
    · intro p
      rw [drawPixel_display, hD p, rowParity, Bool.xor_assoc]
    · have hq : r.Display (cellIndex config x y i n) = c.Display (cellIndex config x y i n) := by
        rw [hD, rowParity_of_not_hit config x y sp i n _
          (fun k hk e => by have := hinj k n (by omega) (by omega) e; omega)]
        simp
      rw [drawPixel_flag, hq, hF, List.range_succ, List.any_append]
      by_cases ha : (List.range n).any (fun j =>
            spriteBit sp j && decide (cellIndex config x y i j < displaySize)
              && c.Display (cellIndex config x y i j)) = true
      · by_cases hb : (spriteBit sp n && decide (cellIndex config x y i n < displaySize)
            && c.Display (cellIndex config x y i n)) = true
        · simp [ha, hb]
        · simp [ha, hb]
      · by_cases hb : (spriteBit sp n && decide (cellIndex config x y i n < displaySize)
            && c.Display (cellIndex config x y i n)) = true
        · simp [ha, hb]
        · simp [ha, hb]

/-- Under the 64x32 configuration the cell index of bit `j` of the first
sprite row is `x0 + j + 64 * y0`. -/
theorem cellIndex_row0 (x0 y0 j : Nat) (hx : x0 < 64) (hy : y0 < 32) (hj : j < 8) :
    cellIndex config64x32 x0 y0 0 j = x0 + j + 64 * y0 := by
  unfold cellIndex u8 config64x32
  simp only
  omega

/-- Effect of a one-row draw `DXY1` under the 64x32 configuration on the
display and on `VF`. -/
theorem emulate_DXY1 (rnd : Nat) (s : Chip8) (X Y : Nat) (hX : X < 16) (hY : Y < 16)
    (h : pointsAt s (0xD0 + X) (16 * Y + 1)) (hI : s.I < 4096) :
    ∃ r, EmulateInstruction config64x32 rnd s = some r ∧
      (∀ p, r.Display p =
        (s.Display p ^^ rowParity config64x32 (s.V X % 64) (s.V Y % 32) (s.Ram s.I) 0 8 p)) ∧
      r.V 0xF =
        (if (List.range 8).any (fun j =>
            spriteBit (s.Ram s.I) j
              && decide (cellIndex config64x32 (s.V X % 64) (s.V Y % 32) 0 j < displaySize)
              && s.Display (cellIndex config64x32 (s.V X % 64) (s.V Y % 32) 0 j)) = true
          then 1 else 0) := by
  rw [emulate_byte config64x32 rnd 13 X (16 * Y + 1) (by omega) hX (by omega) h]
  have hN2 : (16 * Y + 1) % 16 = 1 := by omega
  have hYY : (16 * Y + 1) / 16 = Y := by omega
  have hw : ¬ u8 config64x32.WindowWidth = 0 := by decide
  have hh : ¬ u8 config64x32.WindowHeight = 0 := by decide
  have hw2 : u8 config64x32.WindowWidth = 64 := by decide
  have hh2 : u8 config64x32.WindowHeight = 32 := by decide
  have e : u16 (s.I + u16 0) = s.I := by unfold u16; omega
  have l : s.I < ramSize := by unfold ramSize; omega
  have hinj : ∀ j k, j < 8 → k < 8 →
      cellIndex config64x32 (s.V X % 64) (s.V Y % 32) 0 j =
        cellIndex config64x32 (s.V X % 64) (s.V Y % 32) 0 k → j = k := by
    intro j k hj hk
    rw [cellIndex_row0 _ _ j (Nat.mod_lt _ (by decide)) (Nat.mod_lt _ (by decide)) hj,
      cellIndex_row0 _ _ k (Nat.mod_lt _ (by decide)) (Nat.mod_lt _ (by decide)) hk]
    omega
  obtain ⟨r, hr, hD, hF⟩ := drawPixels_flag config64x32 (s.V X % 64) (s.V Y % 32)
    (s.Ram s.I) 0 8 (le_refl 8) hinj
    { s with
      PC := s.PC + 2
      Instruction :=
        { OpCode := 256 * (16 * 13 + X) + (16 * Y + 1), NNN := 256 * X + (16 * Y + 1),
          NN := 16 * Y + 1, N := 1, X := X, Y := Y }
      V := Function.update s.V 0xF 0 }
  simp only [execute, topNibble_byte 13 X (16 * Y + 1) (by omega) hX (by omega), execD, hN2,
    hYY, hw, hh, if_false, hw2, hh2]
  rw [show forLoop (drawRow config64x32 (s.V X % 64) (s.V Y % 32)) 1 = 
      drawRow config64x32 (s.V X % 64) (s.V Y % 32) 0 from rfl, drawRow]
  simp only [e, l, if_true, hr, Option.some_bind]
  refine ⟨_, rfl, hD, ?_⟩
  rw [hF]
  simp

/-- The collision flag of a repeated one-row draw, in full.  From a display
with every cell off the first `DXY1` leaves `VF = 0`; a second `DXY1` of
the same sprite byte at the same position leaves `VF = 1` when some set
sprite bit `col` has its cell index `x0 + col + 64 * y0` below 2048, and
`VF = 0` when there is no such bit. -/
theorem draw_collision_general (rnd1 rnd2 : Nat) (s1 : Chip8) (X Y : Nat)
    (hX : X < 16) (hY : Y < 16)
    (h1 : pointsAt s1 (0xD0 + X) (16 * Y + 1)) (hI : s1.I < 4096)
    (hclear : ∀ p, p < 2048 → s1.Display p = false) :
    ∃ r1, EmulateInstruction config64x32 rnd1 s1 = some r1 ∧ r1.V 0xF = 0 ∧
      ∀ s2 : Chip8, pointsAt s2 (0xD0 + X) (16 * Y + 1) →
        s2.V X = s1.V X → s2.V Y = s1.V Y → s2.I = s1.I →
        s2.Ram s1.I = s1.Ram s1.I →
        (∀ p, p < 2048 → s2.Display p = r1.Display p) →
        ∃ r2, EmulateInstruction config64x32 rnd2 s2 = some r2 ∧
          ((∃ col, col < 8 ∧ spriteBit (s1.Ram s1.I) col = true ∧
              s1.V X % 64 + col + 64 * (s1.V Y % 32) < 2048) → r2.V 0xF = 1) ∧
          ((¬ ∃ col, col < 8 ∧ spriteBit (s1.Ram s1.I) col = true ∧
              s1.V X % 64 + col + 64 * (s1.V Y % 32) < 2048) → r2.V 0xF = 0) := by
  have hx : s1.V X % 64 < 64 := Nat.mod_lt _ (by decide)
  have hy : s1.V Y % 32 < 32 := Nat.mod_lt _ (by decide)
  have hinj : ∀ j k, j < 8 → k < 8 →
      cellIndex config64x32 (s1.V X % 64) (s1.V Y % 32) 0 j =
        cellIndex config64x32 (s1.V X % 64) (s1.V Y % 32) 0 k → j = k := by
    intro j k hj hk
    rw [cellIndex_row0 _ _ j hx hy hj, cellIndex_row0 _ _ k hx hy hk]
    omega
  obtain ⟨r1, hr1, hD1, hF1⟩ := emulate_DXY1 rnd1 s1 X Y hX hY h1 hI
  refine ⟨r1, hr1, ?_, ?_⟩
  · rw [hF1, if_neg]
    rw [List.any_eq_true]
    rintro ⟨j, _, hj⟩
    simp only [Bool.and_eq_true, decide_eq_true_eq] at hj
    have := hclear _ (by simpa [displaySize] using hj.1.2)
    rw [this] at hj
    exact Bool.noConfusion hj.2
  · intro s2 h2 hVx hVy hIeq hRam hDisp
    obtain ⟨r2, hr2, _, hF2⟩ := emulate_DXY1 rnd2 s2 X Y hX hY h2 (by omega)
    rw [hVx, hVy, hIeq, hRam] at hF2
    refine ⟨r2, hr2, ?_, ?_⟩
    · rintro ⟨col, hcol, hbit, hpos⟩
      have hci := cellIndex_row0 _ _ col hx hy hcol
      have hlt : cellIndex config64x32 (s1.V X % 64) (s1.V Y % 32) 0 col < displaySize := by
        rw [hci]; simpa [displaySize] using hpos
      rw [hF2, if_pos]
      rw [List.any_eq_true]
      refine ⟨col, List.mem_range.mpr hcol, ?_⟩
      have hon : s2.Display (cellIndex config64x32 (s1.V X % 64) (s1.V Y % 32) 0 col) = true := by
        rw [hDisp _ (by simpa [displaySize] using hlt), hD1,
          hclear _ (by simpa [displaySize] using hlt),
          rowParity_of_hit config64x32 _ _ _ 0 8 (le_refl 8) hinj col hcol hbit hlt]
        rfl
      simp [hbit, hlt, hon]
    · intro hno
      rw [hF2, if_neg]
      rw [List.any_eq_true]
      rintro ⟨j, hjm, hj⟩
      have hj8 : j < 8 := List.mem_range.mp hjm
      simp only [Bool.and_eq_true, decide_eq_true_eq] at hj
      apply hno
      refine ⟨j, hj8, hj.1.1, ?_⟩
      have := hj.1.2
      rw [cellIndex_row0 _ _ j hx hy hj8] at this
      simpa [displaySize] using this

/-! ## C5: collision flag on a repeated draw -/

/-- C5 fails for the sprite byte 0.  From a display with every cell off, with
sprite byte 0 at `I` and position `(0, 0)`, the first `D011` leaves `VF = 0`
and leaves `PC` at a second `D011` with the same `V0`, `V1`, `I` and sprite
byte; that second draw leaves `VF = 0`, not 1. -/
theorem draw_collision_zero_sprite :
    (spriteState 0 0 0).Display = (fun _ => false) ∧
    pointsAt (spriteState 0 0 0) 0xD0 0x11 ∧
    (EmulateInstruction config64x32 0 (spriteState 0 0 0)).map
        (fun r => (r.V 0xF, r.PC, r.Ram 0x202, r.Ram 0x203, r.V 0, r.V 1, r.I, r.Ram 0x300))
      = some (0, 0x202, 0xD0, 0x11, 0, 0, 0x300, 0) ∧
    ((EmulateInstruction config64x32 0 (spriteState 0 0 0)).bind
        (EmulateInstruction config64x32 0)).map (fun r => r.V 0xF) = some 0 :=
  ⟨rfl, by decide, rfl, rfl⟩

/-- Sprite byte 0 has no set bit. -/
theorem spriteBit_zero (col : Nat) : spriteBit 0 col = false := by
  simp [spriteBit]

/-- C5, amended.  Under the 64x32 configuration, from a display with every
cell off and a sprite byte inside memory (`I ≤ 4095`), the first `DXY1` leaves
`VF = 0`.  A second `DXY1` with the same `Vx`, `Vy`, `I` and sprite byte, run
on the display the first one left, leaves `VF = 1` when the sprite byte has a
set bit `col` with `x0 + col < 64` (`x0 = Vx mod 64`), and `VF = 0` when the
sprite byte is 0. -/
theorem draw_collision_flag (rnd1 rnd2 : Nat) (s1 : Chip8) (X Y : Nat)
    (hX : X < 16) (hY : Y < 16)
    (h1 : pointsAt s1 (0xD0 + X) (16 * Y + 1)) (hI : s1.I < 4096)
    (hclear : ∀ p, p < 2048 → s1.Display p = false) :
    ∃ r1, EmulateInstruction config64x32 rnd1 s1 = some r1 ∧ r1.V 0xF = 0 ∧
      ∀ s2 : Chip8, pointsAt s2 (0xD0 + X) (16 * Y + 1) →
        s2.V X = s1.V X → s2.V Y = s1.V Y → s2.I = s1.I →
        s2.Ram s1.I = s1.Ram s1.I →
        (∀ p, p < 2048 → s2.Display p = r1.Display p) →
        ∃ r2, EmulateInstruction config64x32 rnd2 s2 = some r2 ∧
          ((∃ col, col < 8 ∧ spriteBit (s1.Ram s1.I) col = true ∧ s1.V X % 64 + col < 64) →
            r2.V 0xF = 1) ∧
          (s1.Ram s1.I = 0 → r2.V 0xF = 0) := by
  obtain ⟨r1, hr1, hF1, hrest⟩ :=
    draw_collision_general rnd1 rnd2 s1 X Y hX hY h1 hI hclear
  refine ⟨r1, hr1, hF1, ?_⟩
  intro s2 h2 hVx hVy hIeq hRam hDisp
  obtain ⟨r2, hr2, hone, hzero⟩ := hrest s2 h2 hVx hVy hIeq hRam hDisp
  refine ⟨r2, hr2, ?_, ?_⟩
  · rintro ⟨col, hcol, hbit, hx⟩
    have hy : s1.V Y % 32 < 32 := Nat.mod_lt _ (by decide)
    exact hone ⟨col, hcol, hbit, by omega⟩
  · intro hsp
    apply hzero
    rintro ⟨col, _, hbit, _⟩
    rw [hsp, spriteBit_zero] at hbit
    exact Bool.noConfusion hbit

/-- Witness for `draw_collision_flag`: sprite byte `0x3C` drawn twice at
`(10, 3)` by two consecutive `D011` instructions. -/
theorem draw_collision_flag_witness :
    pointsAt (spriteState 0x3C 10 3) (0xD0 + 0) (16 * 1 + 1) ∧
    (spriteState 0x3C 10 3).I < 4096 ∧
    (∀ p, p < 2048 → (spriteState 0x3C 10 3).Display p = false) ∧
    ∃ r1, EmulateInstruction config64x32 0 (spriteState 0x3C 10 3) = some r1 ∧
      r1.V 0xF = 0 ∧
      ∃ r2, EmulateInstruction config64x32 0 r1 = some r2 ∧ r2.V 0xF = 1 := by
  refine ⟨by decide, by decide, fun _ _ => rfl, ?_⟩
  obtain ⟨r1, hr1, hF1, hrest⟩ :=
    draw_collision_flag 0 0 (spriteState 0x3C 10 3) 0 1 (by decide) (by decide) (by decide)
      (by decide) (fun _ _ => rfl)
  have e : (EmulateInstruction config64x32 0 (spriteState 0x3C 10 3)).map
      (fun r => (r.PC, r.Ram 0x202, r.Ram 0x203, r.V 0, r.V 1, r.I, r.Ram 0x300))
      = some (0x202, 0xD0, 0x11, 10, 3, 0x300, 0x3C) := by rfl
  rw [hr1] at e
  simp only [Option.map_some', Option.some.injEq, Prod.mk.injEq] at e
  obtain ⟨e1, e2, e3, e4, e5, e6, e7⟩ := e
  have hp : pointsAt r1 (0xD0 + 0) (16 * 1 + 1) := by
    refine ⟨?_, ?_, ?_⟩
    · show r1.PC + 1 < ramSize
      rw [e1]; decide
    · show r1.Ram r1.PC = 0xD0 + 0
      rw [e1, e2]
    · show r1.Ram (r1.PC + 1) = 16 * 1 + 1
      rw [e1, e3]
  obtain ⟨r2, hr2, hone, _⟩ := hrest r1 hp e4 e5 e6 e7 (fun _ _ => rfl)
  exact ⟨r1, hr1, hF1, r2, hr2, hone ⟨2, by decide, by decide, by decide⟩⟩

/-! ## C6: sprite pixels past the right edge -/

/-- C6 at a failing input.  Opcode `D011` with `V0 = 60`, `V1 = 0` and sprite
byte `0xFF`: sprite bits 4 to 7 are set and have column `60 + col ≥ 64`, yet
the draw turns on the cells with index 64 to 67, which are columns 0 to 3 of
row 1 (cells 60 to 63 of row 0 are turned on as well, cell 68 is not). -/
theorem draw_spills_into_next_row :
    pointsAt (spriteState 0xFF 60 0) 0xD0 0x11 ∧
    (∀ col, col < 8 → spriteBit 0xFF col = true) ∧
    (spriteState 0xFF 60 0).V 0 % 64 + 4 ≥ 64 ∧
    (∀ p, p < 70 → (spriteState 0xFF 60 0).Display p = false) ∧
    (EmulateInstruction config64x32 0 (spriteState 0xFF 60 0)).map
        (fun r => (List.range 70).filter r.Display)
      = some [60, 61, 62, 63, 64, 65, 66, 67] := by
  refine ⟨by decide, by decide, by decide, fun _ _ => rfl, by rfl⟩

/-- The sprite bit test in arithmetic terms: bit `col` counted from the most
significant bit of the byte. -/
theorem spriteBit_eq (b col : Nat) (h : col < 8) :
    spriteBit b col = decide (b / 2 ^ (7 - col) % 2 = 1) := by
  have key : ∀ k, (b &&& 2 ^ k != 0) = decide (b / 2 ^ k % 2 = 1) := by
    intro k
    rw [Nat.and_two_pow, ← Nat.testBit_to_div_mod]
    cases b.testBit k <;> simp
  unfold spriteBit
  interval_cases col
  · exact key 7
  · exact key 6
  · exact key 5
  · exact key 4
  · exact key 3
  · exact key 2
  · exact key 1
  · exact key 0

/-! ## C15: instruction decoding -/

/-- C15.  For a state with `PC ≤ 4094` (and 8-bit memory cells at `PC`,
`PC + 1`) the fetched opcode is `w = 256 * Ram[PC] + Ram[PC+1]`, the switch
runs on the state holding the decoded fields of `w`, and these are
`NNN = w mod 4096`, `NN = w mod 256`, `N = w mod 16`, `X = (w div 256) mod 16`,
`Y = (w div 16) mod 16`, so that `w = 4096 (w div 4096) + 256 X + 16 Y + N`
and `NNN = 256 X + NN`. -/
theorem fetch_decode_fields (config : Config) (rnd : Nat) (s : Chip8)
    (hPC : s.PC ≤ 4094) (h0 : s.Ram s.PC < 256) (h1 : s.Ram (s.PC + 1) < 256) :
    fetch s = some (opcodeAt s) ∧
    EmulateInstruction config rnd s =
      execute config rnd { s with PC := s.PC + 2, Instruction := decode (opcodeAt s) } ∧
    (decode (opcodeAt s)).OpCode = opcodeAt s ∧
    (decode (opcodeAt s)).NNN = opcodeAt s % 4096 ∧
    (decode (opcodeAt s)).NN = opcodeAt s % 256 ∧
    (decode (opcodeAt s)).N = opcodeAt s % 16 ∧
    (decode (opcodeAt s)).X = opcodeAt s / 256 % 16 ∧
    (decode (opcodeAt s)).Y = opcodeAt s / 16 % 16 ∧
    opcodeAt s = 4096 * (opcodeAt s / 4096) + 256 * (decode (opcodeAt s)).X
      + 16 * (decode (opcodeAt s)).Y + (decode (opcodeAt s)).N ∧
    (decode (opcodeAt s)).NNN = 256 * (decode (opcodeAt s)).X + (decode (opcodeAt s)).NN := by
  have hp : pointsAt s (s.Ram s.PC) (s.Ram (s.PC + 1)) :=
    ⟨by unfold ramSize; omega, rfl, rfl⟩
  refine ⟨fetch_of_pointsAt hp h0 h1, ?_, ?_⟩
  · rw [EmulateInstruction_of_pointsAt config rnd hp h0 h1]; rfl
  · rw [decode_arith]
    refine ⟨rfl, rfl, rfl, rfl, rfl, rfl, ?_, ?_⟩ <;> simp only <;> omega

/-- Witness for `fetch_decode_fields`: the state holding `D012` at `0x200`. -/
theorem fetch_decode_fields_witness :
    fetch drawState = some (opcodeAt drawState) ∧
    EmulateInstruction config64x32 0 drawState =
      execute config64x32 0
        { drawState with PC := drawState.PC + 2, Instruction := decode (opcodeAt drawState) } ∧
    (decode (opcodeAt drawState)).OpCode = opcodeAt drawState ∧
    (decode (opcodeAt drawState)).NNN = opcodeAt drawState % 4096 ∧
    (decode (opcodeAt drawState)).NN = opcodeAt drawState % 256 ∧
    (decode (opcodeAt drawState)).N = opcodeAt drawState % 16 ∧
    (decode (opcodeAt drawState)).X = opcodeAt drawState / 256 % 16 ∧
    (decode (opcodeAt drawState)).Y = opcodeAt drawState / 16 % 16 ∧
    opcodeAt drawState = 4096 * (opcodeAt drawState / 4096)
      + 256 * (decode (opcodeAt drawState)).X
      + 16 * (decode (opcodeAt drawState)).Y + (decode (opcodeAt drawState)).N ∧
    (decode (opcodeAt drawState)).NNN =
      256 * (decode (opcodeAt drawState)).X + (decode (opcodeAt drawState)).NN :=
  fetch_decode_fields config64x32 0 drawState (by decide) (by decide) (by decide)

/-! ## C14: call and return -/

/-- C14.  For a state with `StackPointer = s < 16` whose `PC = p ≤ 4094`
points at `2NNN`, the call stores `p + 2` in `Stack[s]`, sets `StackPointer`
to `s + 1` and `PC` to `NNN`; if the opcode at `NNN` is `00EE`, the next
`EmulateInstruction` sets `PC` to `p + 2` and `StackPointer` back to `s`. -/
theorem call_return_roundtrip (config : Config) (rnd1 rnd2 : Nat) (s : Chip8) (X NN : Nat)
    (hX : X < 16) (hNN : NN < 256) (h : pointsAt s (0x20 + X) NN)
    (hsp : s.StackPointer < 16) :
    ∃ r1, EmulateInstruction config rnd1 s = some r1 ∧
      r1.Stack s.StackPointer = s.PC + 2 ∧
      r1.StackPointer = s.StackPointer + 1 ∧
      r1.PC = 256 * X + NN ∧
      (pointsAt r1 0x00 0xEE →
        ∃ r2, EmulateInstruction config rnd2 r1 = some r2 ∧
          r2.PC = s.PC + 2 ∧ r2.StackPointer = s.StackPointer) := by
  rw [emulate_byte config rnd1 2 X NN (by omega) hX hNN h]
  have hsp2 : s.StackPointer < sixteen := hsp
  have e1 : u8 (s.StackPointer + 1) = s.StackPointer + 1 := by unfold u8; omega
  simp only [execute, topNibble_byte 2 X NN (by omega) hX hNN, hsp2, if_true, e1]
  refine ⟨_, rfl, by simp, rfl, rfl, ?_⟩
  intro h2
  rw [emulate_byte config rnd2 0 0 0xEE (by omega) (by omega) (by omega) h2]
  have e2 : sub8 (s.StackPointer + 1) 1 = s.StackPointer := by unfold sub8; omega
  simp only [execute, topNibble_byte 0 0 0xEE (by omega) (by omega) (by omega), e2, hsp2,
    if_true, show ¬ ((0xEE : Nat) = 0xE0) by decide, if_false]
  exact ⟨_, rfl, by rw [e2, Function.update_same], rfl⟩

/-- Witness for `call_return_roundtrip`: `2204` at `0x200`, `00EE` at
`0x204`, stack pointer 3. -/
theorem call_return_roundtrip_witness :
    pointsAt callState (0x20 + 2) 0x04 ∧ callState.StackPointer < 16 ∧
    ∃ r1, EmulateInstruction config64x32 0 callState = some r1 ∧
      r1.Stack 3 = 0x202 ∧ r1.StackPointer = 4 ∧ r1.PC = 0x204 ∧
      ∃ r2, EmulateInstruction config64x32 0 r1 = some r2 ∧
        r2.PC = 0x202 ∧ r2.StackPointer = 3 := by
  refine ⟨by decide, by decide, ?_⟩
  obtain ⟨r1, hr1, hst, hsp, hpc, hrest⟩ :=
    call_return_roundtrip config64x32 0 0 callState 2 0x04 (by decide) (by decide)
      (by decide) (by decide)
  have e : (EmulateInstruction config64x32 0 callState).map
      (fun r => (r.Ram 0x204, r.Ram 0x205)) = some (0x00, 0xEE) := by rfl
  rw [hr1] at e
  simp only [Option.map_some', Option.some.injEq, Prod.mk.injEq] at e
  have hp : pointsAt r1 0x00 0xEE := by
    refine ⟨?_, ?_, ?_⟩
    · show r1.PC + 1 < ramSize
      rw [hpc]; decide
    · show r1.Ram r1.PC = 0x00
      rw [hpc]; exact e.1
    · show r1.Ram (r1.PC + 1) = 0xEE
      rw [hpc]; exact e.2
  exact ⟨r1, hr1, hst, hsp, hpc, hrest hp⟩

/-! ## C19: key skips, `EX9E` and `EXA1` -/

/-- Effect of `EX9E`: a runtime error unless `Vx < 16`. -/
theorem emulate_EX9E (config : Config) (rnd : Nat) (s : Chip8) (X : Nat) (hX : X < 16)
    (h : pointsAt s (0xE0 + X) 0x9E) :
    EmulateInstruction config rnd s =
      if s.V X < 16 then
        some { fetched s (256 * (0xE0 + X) + 0x9E) with
          PC := if s.KeyPad (s.V X) = true then s.PC + 4 else s.PC + 2 }
      else none := by
  rw [EmulateInstruction_of_pointsAt config rnd h (by omega) (by omega)]
  have hd := decode_byte 14 X 0x9E hX (by omega)
  have ht := topNibble_byte 14 X 0x9E (by omega) hX (by omega)
  have e4 : u16 (s.PC + 2 + 2) = s.PC + 4 := by
    have := h.1; unfold u16 ramSize at *; omega
  simp only [fetched, execute, show (0xE0 : Nat) = 16 * 14 from rfl, hd, ht, execE, sixteen, e4]
  by_cases hv : s.V X < 16
  · by_cases hk : s.KeyPad (s.V X) = true <;> simp [hv, hk]
  · simp [hv]

/-- Effect of `EXA1`: a runtime error unless `Vx < 16`. -/
theorem emulate_EXA1 (config : Config) (rnd : Nat) (s : Chip8) (X : Nat) (hX : X < 16)
    (h : pointsAt s (0xE0 + X) 0xA1) :
    EmulateInstruction config rnd s =
      if s.V X < 16 then
        some { fetched s (256 * (0xE0 + X) + 0xA1) with
          PC := if s.KeyPad (s.V X) = false then s.PC + 4 else s.PC + 2 }
      else none := by
  rw [EmulateInstruction_of_pointsAt config rnd h (by omega) (by omega)]
  have hd := decode_byte 14 X 0xA1 hX (by omega)
  have ht := topNibble_byte 14 X 0xA1 (by omega) hX (by omega)
  have e4 : u16 (s.PC + 2 + 2) = s.PC + 4 := by
    have := h.1; unfold u16 ramSize at *; omega
  simp only [fetched, execute, show (0xE0 : Nat) = 16 * 14 from rfl, hd, ht, execE, sixteen, e4]
  by_cases hv : s.V X < 16
  · by_cases hk : s.KeyPad (s.V X) = true <;> simp [hv, hk]
  · simp [hv]

/-- C19.  For a state `s` whose `PC ≤ 4094` points at `EX9E` and a state `t`
whose `PC ≤ 4094` points at `EXA1`: each call completes exactly when `Vx < 16`
(it is a runtime error when `Vx ≥ 16`); when it completes, `EX9E` sets `PC` to
the old `PC + 4` iff `KeyPad[Vx]` is true and `EXA1` does so iff `KeyPad[Vx]`
is false, the old `PC + 2` otherwise; so when `s` and `t` agree on `Vx` and on
the keypad, exactly one of the two skips. -/
theorem key_skip_safety (config : Config) (rnd : Nat) (s t : Chip8) (X : Nat) (hX : X < 16)
    (hs : pointsAt s (0xE0 + X) 0x9E) (ht : pointsAt t (0xE0 + X) 0xA1) :
    ((∃ r, EmulateInstruction config rnd s = some r) ↔ s.V X < 16) ∧
    ((∃ r, EmulateInstruction config rnd t = some r) ↔ t.V X < 16) ∧
    (∀ r, EmulateInstruction config rnd s = some r →
      (r.PC = s.PC + 4 ↔ s.KeyPad (s.V X) = true) ∧
      (r.PC = s.PC + 2 ↔ s.KeyPad (s.V X) = false)) ∧
    (∀ r, EmulateInstruction config rnd t = some r →
      (r.PC = t.PC + 4 ↔ t.KeyPad (t.V X) = false) ∧
      (r.PC = t.PC + 2 ↔ t.KeyPad (t.V X) = true)) ∧
    (t.V X = s.V X → t.KeyPad = s.KeyPad → s.V X < 16 →
      ∃ r q, EmulateInstruction config rnd s = some r ∧
        EmulateInstruction config rnd t = some q ∧
        ((r.PC = s.PC + 4 ∧ q.PC = t.PC + 2) ∨ (r.PC = s.PC + 2 ∧ q.PC = t.PC + 4))) := by
  have es := emulate_EX9E config rnd s X hX hs
  have et := emulate_EXA1 config rnd t X hX ht
  refine ⟨?_, ?_, ?_, ?_, ?_⟩
  · rw [es]
    by_cases hv : s.V X < 16 <;> simp [hv]
  · rw [et]
    by_cases hv : t.V X < 16 <;> simp [hv]
  · intro r hr
    rw [es] at hr
    by_cases hv : s.V X < 16
    · rw [if_pos hv] at hr
      cases hr
      by_cases hk : s.KeyPad (s.V X) = true
      · simp [hk]
      · simp [hk]
    · rw [if_neg hv] at hr
      cases hr
  · intro r hr
    rw [et] at hr
    by_cases hv : t.V X < 16
    · rw [if_pos hv] at hr
      cases hr
      by_cases hk : t.KeyPad (t.V X) = true
      · simp [hk]
      · simp [hk]
    · rw [if_neg hv] at hr
      cases hr
  · intro hV hK hv
    have hvt : t.V X < 16 := by rw [hV]; exact hv
    rw [es, et, if_pos hv, if_pos hvt]
    refine ⟨_, _, rfl, rfl, ?_⟩
    rw [hV, hK]
    by_cases hk : s.KeyPad (s.V X) = true
    · left; simp [hk]
    · right; simp [hk]

/-- Witness for `key_skip_safety`: `E29E` and `E2A1` with `V2 = 4` and key 4
pressed; `E29E` skips, `E2A1` does not. -/
theorem key_skip_safety_witness :
    pointsAt (skipState 0xE2 0x9E 4 (fun i => i == 4)) (0xE0 + 2) 0x9E ∧
    pointsAt (skipState 0xE2 0xA1 4 (fun i => i == 4)) (0xE0 + 2) 0xA1 ∧
    (skipState 0xE2 0x9E 4 (fun i => i == 4)).V 2 < 16 ∧
    ∃ r q, EmulateInstruction config64x32 0 (skipState 0xE2 0x9E 4 (fun i => i == 4)) = some r ∧
      EmulateInstruction config64x32 0 (skipState 0xE2 0xA1 4 (fun i => i == 4)) = some q ∧
      ((r.PC = (skipState 0xE2 0x9E 4 (fun i => i == 4)).PC + 4 ∧
          q.PC = (skipState 0xE2 0xA1 4 (fun i => i == 4)).PC + 2) ∨
        (r.PC = (skipState 0xE2 0x9E 4 (fun i => i == 4)).PC + 2 ∧
          q.PC = (skipState 0xE2 0xA1 4 (fun i => i == 4)).PC + 4)) :=
  ⟨by decide, by decide, by decide,
    (key_skip_safety config64x32 0 (skipState 0xE2 0x9E 4 (fun i => i == 4))
      (skipState 0xE2 0xA1 4 (fun i => i == 4)) 2 (by decide) (by decide) (by decide)).2.2.2.2
      rfl rfl (by decide)⟩

/-! ## C20: frame of register dump and load -/

/-- C20.  With `I + X ≤ 4095`: `FX55` leaves `I` and all registers unchanged,
changes no memory byte outside `I .. I+X`, and afterwards `Ram[I + i] = Vi`
for every `i ≤ X`; `FX65` leaves `I`, all memory and the registers above `VX`
unchanged, and afterwards `Vi = Ram[I + i]` for every `i ≤ X`. -/
theorem dump_load_frame (config : Config) (rnd : Nat) (s : Chip8) (X : Nat) (hX : X < 16)
    (hI : s.I + X ≤ 4095) :
    (pointsAt s (0xF0 + X) 0x55 →
      ∃ r, EmulateInstruction config rnd s = some r ∧ r.I = s.I ∧ r.V = s.V ∧
        (∀ a, a < s.I ∨ s.I + X < a → r.Ram a = s.Ram a) ∧
        ∀ i, i ≤ X → r.Ram (s.I + i) = s.V i) ∧
    (pointsAt s (0xF0 + X) 0x65 →
      ∃ r, EmulateInstruction config rnd s = some r ∧ r.I = s.I ∧ r.Ram = s.Ram ∧
        (∀ i, X < i → r.V i = s.V i) ∧
        ∀ i, i ≤ X → r.V i = s.Ram (s.I + i)) := by
  constructor
  · intro h
    refine ⟨_, emulate_FX55 config rnd s X hX h hI, rfl, rfl, ?_, ?_⟩
    · intro a ha
      have hn : ¬ (s.I ≤ a ∧ a < s.I + (X + 1)) := by omega
      simp only [hn, if_false]
    · intro i hi
      have hy : s.I ≤ s.I + i ∧ s.I + i < s.I + (X + 1) := by omega
      simp only [hy, and_self, if_true, Nat.add_sub_cancel_left]
  · intro h
    refine ⟨_, emulate_FX65 config rnd s X hX h hI, rfl, rfl, ?_, ?_⟩
    · intro i hi
      have hn : ¬ i < X + 1 := by omega
      simp only [hn, if_false]
    · intro i hi
      have hy : i < X + 1 := by omega
      simp only [hy, if_true]

/-- Witness for `dump_load_frame`: `F255` and `F265` with `I = 0x300`. -/
theorem dump_load_frame_witness :
    (pointsAt (frameState 0xF2 0x55) (0xF0 + 2) 0x55 ∧
      ∃ r, EmulateInstruction config64x32 0 (frameState 0xF2 0x55) = some r ∧
        r.I = (frameState 0xF2 0x55).I ∧ r.V = (frameState 0xF2 0x55).V ∧
        (∀ a, a < (frameState 0xF2 0x55).I ∨ (frameState 0xF2 0x55).I + 2 < a →
          r.Ram a = (frameState 0xF2 0x55).Ram a) ∧
        ∀ i, i ≤ 2 → r.Ram ((frameState 0xF2 0x55).I + i) = (frameState 0xF2 0x55).V i) ∧
    (pointsAt (frameState 0xF2 0x65) (0xF0 + 2) 0x65 ∧
      ∃ r, EmulateInstruction config64x32 0 (frameState 0xF2 0x65) = some r ∧
        r.I = (frameState 0xF2 0x65).I ∧ r.Ram = (frameState 0xF2 0x65).Ram ∧
        (∀ i, 2 < i → r.V i = (frameState 0xF2 0x65).V i) ∧
        ∀ i, i ≤ 2 → r.V i = (frameState 0xF2 0x65).Ram ((frameState 0xF2 0x65).I + i)) :=
  ⟨⟨by decide,
      (dump_load_frame config64x32 0 (frameState 0xF2 0x55) 2 (by decide) (by decide)).1
        (by decide)⟩,
    ⟨by decide,
      (dump_load_frame config64x32 0 (frameState 0xF2 0x65) 2 (by decide) (by decide)).2
        (by decide)⟩⟩

/-! ## C16: shifts, `8XY6` and `8XYE` -/

/-- C16 at a failing input, `X = 0xF`.  Opcode `8F06` with `VF = 3` (bit 0
set) leaves `VF = 0`, and opcode `8F0E` with `VF = 0x81` (bit 7 set) leaves
`VF = 2`: the flag is stored in `VF` first and then shifted as `Vx`. -/
theorem shift_flag_lost_when_X_is_F :
    pointsAt (stateAt 0x8F 0x06 (regsFlag 3)) (0x80 + 0xF) (16 * 0 + 6) ∧
    (stateAt 0x8F 0x06 (regsFlag 3)).V 0xF % 2 = 1 ∧
    (EmulateInstruction config64x32 0 (stateAt 0x8F 0x06 (regsFlag 3))).map
      (fun r => r.V 0xF) = some 0 ∧
    pointsAt (stateAt 0x8F 0x0E (regsFlag 0x81)) (0x80 + 0xF) (16 * 0 + 0xE) ∧
    (stateAt 0x8F 0x0E (regsFlag 0x81)).V 0xF / 128 % 2 = 1 ∧
    (EmulateInstruction config64x32 0 (stateAt 0x8F 0x0E (regsFlag 0x81))).map
      (fun r => r.V 0xF) = some 2 := by
  decide

/-- Bit 7 of an 8-bit value, as the source computes it. -/
theorem and_0x80_shift (a : Nat) : (a &&& 0x80) >>> 7 = a / 128 % 2 := by
  rw [show (0x80 : Nat) = 2 ^ 7 from rfl, Nat.and_two_pow, Nat.shiftRight_eq_div_pow,
    Nat.testBit_to_div_mod, show (2 : Nat) ^ 7 = 128 from rfl]
  by_cases h : a / 128 % 2 = 1
  · simp [h]
  · have h0 : a / 128 % 2 = 0 := by omega
    simp [h0]

/-- What `8XY6` and `8XYE` do when `X` is not `0xF`, with `Vx = a`:
`VF` is bit 0 (bit 7) of `a` and `Vx` is `a div 2` (`2 a mod 256`). -/
theorem shift_behaviour (config : Config) (rnd : Nat) (s : Chip8) (X Y : Nat)
    (hX : X < 15) (hY : Y < 16) :
    (pointsAt s (0x80 + X) (16 * Y + 6) →
      ∃ r, EmulateInstruction config rnd s = some r ∧
        r.V 0xF = s.V X % 2 ∧ r.V X = s.V X / 2) ∧
    (pointsAt s (0x80 + X) (16 * Y + 0xE) →
      ∃ r, EmulateInstruction config rnd s = some r ∧
        r.V 0xF = s.V X / 128 % 2 ∧ r.V X = (2 * s.V X) % 256) := by
  have hXF : (15 : Nat) ≠ X := by omega
  have hXF2 : X ≠ 15 := by omega
  constructor
  · intro h
    rw [emulate_byte config rnd 8 X (16 * Y + 6) (by omega) (by omega) (by omega) h]
    have hN : (16 * Y + 6) % 16 = 6 := by omega
    simp only [execute, topNibble_byte 8 X (16 * Y + 6) (by omega) (by omega) (by omega),
      exec8, hN]
    refine ⟨_, rfl, ?_, ?_⟩
    · simp [Function.update, hXF, Nat.and_one_is_mod]
    · simp [Function.update, hXF2, Nat.shiftRight_eq_div_pow]
  · intro h
    rw [emulate_byte config rnd 8 X (16 * Y + 0xE) (by omega) (by omega) (by omega) h]
    have hN : (16 * Y + 0xE) % 16 = 0xE := by omega
    simp only [execute, topNibble_byte 8 X (16 * Y + 0xE) (by omega) (by omega) (by omega),
      exec8, hN]
    refine ⟨_, rfl, ?_, ?_⟩
    · simp only [Function.update, hXF, dite_false, and_0x80_shift]
      simp
    · simp [Function.update, hXF2, Nat.shiftLeft_eq, u8, Nat.mul_comm]

/-! ## C12: program load -/

/-- A loop that stores `v i` at address `base + i` for `i < n` changes exactly
these memory cells. -/
theorem rangeLoop_store (g v : Nat → Nat) (base n : Nat)
    (hg : ∀ i, i < n → g i = base + i) (c : Chip8) :
    rangeLoop (fun i d => { d with Ram := Function.update d.Ram (g i) (v i) }) n c =
      { c with Ram := fun a => if base ≤ a ∧ a < base + n then v (a - base) else c.Ram a } := by
  induction n with
  | zero =>
    have e : (fun a => if base ≤ a ∧ a < base + 0 then v (a - base) else c.Ram a) = c.Ram := by
      funext a
      have hb : ¬ (base ≤ a ∧ a < base + 0) := by omega
      simp only [hb, if_false]
    simp only [rangeLoop, e]
  | succ n ih =>
    rw [rangeLoop, ih (fun i hi => hg i (by omega)), hg n (by omega)]
    congr 1
    funext a
    by_cases ha : a = base + n
    · subst ha; simp
    · simp only [Function.update, ha, dite_false]
      by_cases hb : base ≤ a ∧ a < base + n
      · have hb2 : base ≤ a ∧ a < base + (n + 1) := by omega
        simp only [hb, hb2, and_self, if_true]
      · have hb2 : ¬ (base ≤ a ∧ a < base + (n + 1)) := by omega
        simp only [hb, hb2, if_false]

/-- The state `NewChip8` returns for a ROM of at most 3584 bytes. -/
theorem NewChip8_eq (romName : String) (rom : List Nat) (h : rom.length ≤ 3584) :
    NewChip8 romName (some rom) =
      some { zeroChip8 with
        State := RUNNING
        PC := 0x200
        ROMName := romName
        Ram := fun a =>
          if 0x200 ≤ a ∧ a < 0x200 + rom.length then rom.getD (a - 0x200) 0
          else if a < 80 then font.getD a 0 else 0 } := by
  have hlen : ¬ rom.length > ramSize - 0x200 := by unfold ramSize; omega
  simp only [NewChip8, hlen, if_false]
  rw [rangeLoop_store (fun i => i) (fun i => font.getD i 0) 0 font.length
      (fun i _ => by show i = 0 + i; omega),
    rangeLoop_store (fun i => u16 (0x200 + u16 i)) (fun i => rom.getD i 0) 0x200 rom.length
      (fun i hi => by show u16 (0x200 + u16 i) = 0x200 + i; unfold u16; omega)]
  congr 2
  funext a
  by_cases ha : 0x200 ≤ a ∧ a < 0x200 + rom.length
  · simp only [ha, and_self, if_true]
  · simp only [ha, if_false]
    by_cases hb : a < 80
    · have hb2 : 0 ≤ a ∧ a < 0 + font.length := ⟨by omega, by simpa [font] using hb⟩
      simp only [hb2, and_self, if_true, hb, Nat.sub_zero]
    · have hb2 : ¬ (0 ≤ a ∧ a < 0 + font.length) := by
        intro hc
        have := hc.2
        simp [font] at this
        omega
      simp only [hb2, if_false, hb]
      rfl

/-- C12.  As a function of the ROM bytes read, `NewChip8` fails if and only if
the ROM is longer than `4096 - 0x200 = 3584` bytes.  On success
`Ram[0x200 + i]` is ROM byte `i` for every `i`, `Ram[0..80)` is the font
table, every other memory byte is 0, `PC = 0x200`, `StackPointer = 0`, both
timers are 0, every display cell and keypad entry is false, and `State` is
`RUNNING`. -/
theorem newChip8_load (romName : String) (rom : List Nat) :
    (NewChip8 romName (some rom) = none ↔ rom.length > 4096 - 0x200) ∧
    4096 - 0x200 = 3584 ∧ font.length = 80 ∧
    ∀ c, NewChip8 romName (some rom) = some c →
      (∀ i, i < rom.length → c.Ram (0x200 + i) = rom.getD i 0) ∧
      (∀ i, i < 80 → c.Ram i = font.getD i 0) ∧
      (∀ a, 80 ≤ a → a < 0x200 ∨ 0x200 + rom.length ≤ a → c.Ram a = 0) ∧
      c.PC = 0x200 ∧ c.StackPointer = 0 ∧ c.DelayTimer = 0 ∧ c.SoundTimer = 0 ∧
      (∀ p, c.Display p = false) ∧ (∀ k, c.KeyPad k = false) ∧ c.State = RUNNING := by
  refine ⟨?_, rfl, rfl, ?_⟩
  · by_cases h : rom.length ≤ 3584
    · rw [NewChip8_eq romName rom h]
      simp only [reduceCtorEq, false_iff]
      omega
    · have hlen : rom.length > ramSize - 0x200 := by unfold ramSize; omega
      simp only [NewChip8, hlen, if_true, true_iff]
      omega
  · intro c hc
    by_cases h : rom.length ≤ 3584
    · rw [NewChip8_eq romName rom h] at hc
      cases hc
      refine ⟨?_, ?_, ?_, rfl, rfl, rfl, rfl, fun _ => rfl, fun _ => rfl, rfl⟩
      · intro i hi
        have hy : 0x200 ≤ 0x200 + i ∧ 0x200 + i < 0x200 + rom.length := by omega
        simp only [hy, and_self, if_true, Nat.add_sub_cancel_left]
      · intro i hi
        have hn : ¬ (0x200 ≤ i ∧ i < 0x200 + rom.length) := by omega
        simp only [hn, if_false, hi, if_true]
      · intro a h80 ha
        have hn : ¬ (0x200 ≤ a ∧ a < 0x200 + rom.length) := by omega
        have hn2 : ¬ a < 80 := by omega
        simp only [hn, if_false, hn2]
    · have hlen : rom.length > ramSize - 0x200 := by unfold ramSize; omega
      simp only [NewChip8, hlen, if_true] at hc
      cases hc

/-- Witness for `newChip8_load`: the 6-byte ROM `60 05 70 03 00 E0` loads. -/
theorem newChip8_load_witness :
    ∃ c, NewChip8 "rom.ch8" (some sampleRom) = some c ∧
      (∀ i, i < sampleRom.length → c.Ram (0x200 + i) = sampleRom.getD i 0) ∧
      (∀ i, i < 80 → c.Ram i = font.getD i 0) ∧
      (∀ a, 80 ≤ a → a < 0x200 ∨ 0x200 + sampleRom.length ≤ a → c.Ram a = 0) ∧
      c.PC = 0x200 ∧ c.StackPointer = 0 ∧ c.DelayTimer = 0 ∧ c.SoundTimer = 0 ∧
      (∀ p, c.Display p = false) ∧ (∀ k, c.KeyPad k = false) ∧ c.State = RUNNING :=
  ⟨_, rfl, (newChip8_load "rom.ch8" sampleRom).2.2.2 _ rfl⟩

/-! ## C13: end-to-end scenario -/

/-- Effect of `6XNN`. -/
theorem emulate_6XNN (config : Config) (rnd : Nat) (s : Chip8) (X NN : Nat)
    (hX : X < 16) (hNN : NN < 256) (h : pointsAt s (0x60 + X) NN) :
    EmulateInstruction config rnd s =
      some { fetched s (256 * (0x60 + X) + NN) with V := Function.update s.V X NN } := by
  rw [emulate_byte config rnd 6 X NN (by omega) hX hNN h]
  simp only [execute, topNibble_byte 6 X NN (by omega) hX hNN, fetched,
    show (0x60 : Nat) = 16 * 6 from rfl, decode_byte 6 X NN hX hNN]

/-- Effect of `7XNN`. -/
theorem emulate_7XNN (config : Config) (rnd : Nat) (s : Chip8) (X NN : Nat)
    (hX : X < 16) (hNN : NN < 256) (h : pointsAt s (0x70 + X) NN) :
    EmulateInstruction config rnd s =
      some { fetched s (256 * (0x70 + X) + NN) with
        V := Function.update s.V X ((s.V X + NN) % 256) } := by
  rw [emulate_byte config rnd 7 X NN (by omega) hX hNN h]
  simp only [execute, topNibble_byte 7 X NN (by omega) hX hNN, fetched, u8,
    show (0x70 : Nat) = 16 * 7 from rfl, decode_byte 7 X NN hX hNN]

/-- Effect of `00E0`. -/
theorem emulate_00E0 (config : Config) (rnd : Nat) (s : Chip8)
    (h : pointsAt s 0x00 0xE0) :
    EmulateInstruction config rnd s =
      some { fetched s 0x00E0 with
        Display := fun i => if i < displaySize then false else s.Display i } := by
  rw [emulate_byte config rnd 0 0 0xE0 (by omega) (by omega) (by omega) h]
  simp only [execute, topNibble_byte 0 0 0xE0 (by omega) (by omega) (by omega), fetched,
    if_true, decode_byte 0 0 0xE0 (by omega) (by omega)]

/-- Three instructions run from any state whose `PC = 0x200` holds the bytes
`60 05 70 03 00 E0`. -/
theorem run_sample_program (config : Config) (rnd : Nat → Nat) (c : Chip8)
    (hPC : c.PC = 0x200)
    (h0 : c.Ram 0x200 = 0x60) (h1 : c.Ram 0x201 = 0x05) (h2 : c.Ram 0x202 = 0x70)
    (h3 : c.Ram 0x203 = 0x03) (h4 : c.Ram 0x204 = 0x00) (h5 : c.Ram 0x205 = 0xE0) :
    ∃ r, runN config rnd 3 c = some r ∧
      r.V 0 = 8 ∧ r.PC = 0x206 ∧ ∀ p, p < 2048 → r.Display p = false := by
  have p1 : pointsAt c (0x60 + 0) 0x05 := by
    refine ⟨?_, ?_, ?_⟩
    · rw [hPC]; decide
    · rw [hPC]; exact h0
    · rw [hPC]; exact h1
  have e1 := emulate_6XNN config (rnd 0) c 0 0x05 (by omega) (by omega) p1
  have p2 : pointsAt { fetched c (256 * (0x60 + 0) + 0x05) with
      V := Function.update c.V 0 0x05 } (0x70 + 0) 0x03 := by
    refine ⟨?_, ?_, ?_⟩
    · show c.PC + 2 + 1 < ramSize
      rw [hPC]; decide
    · show c.Ram (c.PC + 2) = 0x70 + 0
      rw [hPC]; exact h2
    · show c.Ram (c.PC + 2 + 1) = 0x03
      rw [hPC]; exact h3
  have e2 := emulate_7XNN config (rnd 1) _ 0 0x03 (by omega) (by omega) p2
  have p3 : pointsAt { fetched { fetched c (256 * (0x60 + 0) + 0x05) with
      V := Function.update c.V 0 0x05 } (256 * (0x70 + 0) + 0x03) with
      V := Function.update (Function.update c.V 0 0x05) 0
        ((Function.update c.V 0 0x05 0 + 0x03) % 256) } 0x00 0xE0 := by
    refine ⟨?_, ?_, ?_⟩
    · show c.PC + 2 + 2 + 1 < ramSize
      rw [hPC]; decide
    · show c.Ram (c.PC + 2 + 2) = 0x00
      rw [hPC]; exact h4
    · show c.Ram (c.PC + 2 + 2 + 1) = 0xE0
      rw [hPC]; exact h5
  have e3 := emulate_00E0 config (rnd 2) _ p3
  simp only [runN, Option.some_bind]
  rw [e1, Option.some_bind, e2, Option.some_bind, e3]
  refine ⟨_, rfl, ?_, ?_, ?_⟩
  · show Function.update (Function.update c.V 0 0x05) 0
        ((Function.update c.V 0 0x05 0 + 0x03) % 256) 0 = 8
    rw [Function.update_same, Function.update_same]
  · show c.PC + 2 + 2 + 2 = 0x206
    rw [hPC]
  · intro p hp
    have hp2 : p < displaySize := hp
    simp only [hp2, if_true]

/-- C13.  The machine built from the 6-byte ROM `60 05 70 03 00 E0`, after
three calls of `EmulateInstruction` under the 64x32 configuration, has
`V0 = 8`, `PC = 0x206` and every display cell off. -/
theorem end_to_end_scenario (romName : String) (rnd : Nat → Nat) :
    ∃ r, (NewChip8 romName (some sampleRom)).bind (runN config64x32 rnd 3) = some r ∧
      r.V 0 = 8 ∧ r.PC = 0x206 ∧ ∀ p, p < 2048 → r.Display p = false := by
  rw [NewChip8_eq romName sampleRom (by decide), Option.some_bind]
  exact run_sample_program config64x32 rnd _ rfl rfl rfl rfl rfl rfl rfl

/-! ## C11: opcodes without a handler -/

/-- C11 fails for opcodes `0XE0` and `0XEE` with `X ≠ 0`.  `01E0` and `01EE`
match none of the listed patterns; `01E0` turns off display cell 5, which was
on, and `01EE` with an empty stack (`StackPointer = 0`) fails. -/
theorem unlisted_opcode_not_noop :
    isDefinedOpcode 0x01E0 = false ∧ isDefinedOpcode 0x01EE = false ∧
    pointsAt (litState 0x01 0xE0) 0x01 0xE0 ∧
    (litState 0x01 0xE0).Display 5 = true ∧
    (EmulateInstruction config64x32 0 (litState 0x01 0xE0)).map (fun r => r.Display 5)
      = some false ∧
    pointsAt (litState 0x01 0xEE) 0x01 0xEE ∧
    (litState 0x01 0xEE).StackPointer = 0 ∧
    (EmulateInstruction config64x32 0 (litState 0x01 0xEE)).isNone = true := by
  decide

/-- An opcode that reaches no handler leaves the state as the fetch left
it. -/
theorem emulate_undispatched (config : Config) (rnd : Nat) (s : Chip8) (t X NN : Nat)
    (ht : t < 16) (hX : X < 16) (hNN : NN < 256) (h : pointsAt s (16 * t + X) NN)
    (hu : isDispatched (256 * (16 * t + X) + NN) = false) :
    EmulateInstruction config rnd s = some (fetched s (256 * (16 * t + X) + NN)) := by
  rw [emulate_byte config rnd t X NN ht hX hNN h, fetched, decode_byte t X NN hX hNN]
  have e_t : (256 * (16 * t + X) + NN) / 4096 % 16 = t := by omega
  have e_NN : (256 * (16 * t + X) + NN) % 256 = NN := by omega
  have e_N : (256 * (16 * t + X) + NN) % 16 = NN % 16 := by omega
  have e_top := topNibble_byte t X NN ht hX hNN
  unfold isDispatched at hu
  rw [e_t, e_NN, e_N] at hu
  simp only [execute, e_top]
  interval_cases t
  · simp at hu
    simp [hu.1, hu.2]
  · simp at hu
  · simp at hu
  · simp at hu
  · simp at hu
  · simp at hu
    simp [hu]
  · simp at hu
  · simp at hu
  · simp at hu
    simp only [exec8]
    split <;> first | rfl | omega
  · simp at hu
    simp [hu]
  · simp at hu
  · simp at hu
  · simp at hu
  · simp at hu
  · simp at hu
    simp only [execE]
    split <;> first | rfl | omega
  · simp at hu
    simp only [execF]
    split <;> first | rfl | omega

/-- An opcode outside the listed patterns that is not of the form `0XE0` or
`0XEE` reaches no handler. -/
theorem isDispatched_of_not_defined (t X NN : Nat) (ht : t < 16) (hX : X < 16)
    (hNN : NN < 256) (hdef : isDefinedOpcode (256 * (16 * t + X) + NN) = false)
    (hnot : ¬ (t = 0 ∧ (NN = 0xE0 ∨ NN = 0xEE))) :
    isDispatched (256 * (16 * t + X) + NN) = false := by
  have e_t : (256 * (16 * t + X) + NN) / 4096 % 16 = t := by omega
  have e_NN : (256 * (16 * t + X) + NN) % 256 = NN := by omega
  unfold isDefinedOpcode at hdef
  unfold isDispatched
  rw [e_t] at hdef ⊢
  rw [e_NN]
  interval_cases t
  · have h1 : ¬ NN = 0xE0 := fun e => hnot ⟨rfl, Or.inl e⟩
    have h2 : ¬ NN = 0xEE := fun e => hnot ⟨rfl, Or.inr e⟩
    simp [h1, h2]
  all_goals first | exact hdef | simpa [e_NN] using hdef

/-- C11, amended.  For every 16-bit opcode `256 hi + lo` that matches none of
the listed patterns and is not of the form `0XE0` or `0XEE` (top nibble 0 and
low byte `E0` or `EE`, any `X`), and every state whose `PC ≤ 4094` points at
it, `EmulateInstruction` completes and leaves memory, registers, `I`, stack,
stack pointer, timers, display and keypad unchanged; `PC` is the old
`PC + 2`. -/
theorem unknown_opcode_noop (config : Config) (rnd : Nat) (s : Chip8) (hi lo : Nat)
    (hhi : hi < 256) (hlo : lo < 256) (h : pointsAt s hi lo)
    (hdef : isDefinedOpcode (256 * hi + lo) = false)
    (hnot : ¬ (hi / 16 = 0 ∧ (lo = 0xE0 ∨ lo = 0xEE))) :
    ∃ r, EmulateInstruction config rnd s = some r ∧ r.PC = s.PC + 2 ∧ sameMachine r s := by
  have ehi : hi = 16 * (hi / 16) + hi % 16 := by omega
  rw [ehi] at h hdef
  have hd := isDispatched_of_not_defined (hi / 16) (hi % 16) lo (by omega) (by omega) hlo
    hdef hnot
  exact ⟨_, emulate_undispatched config rnd s (hi / 16) (hi % 16) lo (by omega) (by omega)
    hlo h hd, rfl, sameMachine_fetched s _⟩

/-- Witness for `unknown_opcode_noop`: opcode `F1FF` in a state with
display cell 5 on. -/
theorem unknown_opcode_noop_witness :
    pointsAt (litState 0xF1 0xFF) 0xF1 0xFF ∧
    isDefinedOpcode (256 * 0xF1 + 0xFF) = false ∧
    ∃ r, EmulateInstruction config64x32 0 (litState 0xF1 0xFF) = some r ∧
      r.PC = (litState 0xF1 0xFF).PC + 2 ∧ sameMachine r (litState 0xF1 0xFF) :=
  ⟨by decide, by decide,
    unknown_opcode_noop config64x32 0 (litState 0xF1 0xFF) 0xF1 0xFF (by decide) (by decide)
      (by decide) (by decide) (by decide)⟩

/-! ## C17: the index register and the memory bounds -/

/-- C17 fails for `I = 4096`.  `D011`, `F033`, `F055` and `F065` each stop
with a runtime error when `I = 0x1000`: the address is not wrapped into the
4096-byte memory. -/
theorem index_4096_fails :
    pointsAt (indexState 0xD0 0x11 0x1000) 0xD0 0x11 ∧
    (EmulateInstruction config64x32 0 (indexState 0xD0 0x11 0x1000)).isNone = true ∧
    pointsAt (indexState 0xF0 0x33 0x1000) 0xF0 0x33 ∧
    (EmulateInstruction config64x32 0 (indexState 0xF0 0x33 0x1000)).isNone = true ∧
    pointsAt (indexState 0xF0 0x55 0x1000) 0xF0 0x55 ∧
    (EmulateInstruction config64x32 0 (indexState 0xF0 0x55 0x1000)).isNone = true ∧
    pointsAt (indexState 0xF0 0x65 0x1000) 0xF0 0x65 ∧
    (EmulateInstruction config64x32 0 (indexState 0xF0 0x65 0x1000)).isNone = true := by
  decide

/-- A loop that has failed after `m` iterations has failed after any larger
number of iterations. -/
theorem forLoop_none_mono {σ : Type} (body : Nat → σ → Option σ) (m n : Nat) (c : σ)
    (h : forLoop body m c = none) (hmn : m ≤ n) : forLoop body n c = none := by
  induction n with
  | zero =>
    have : m = 0 := by omega
    subst this
    exact h
  | succ n ih =>
    by_cases hm : m = n + 1
    · subst hm; exact h
    · rw [forLoop, ih (by omega)]; rfl

/-- The `FX55` loop fails when one of its `n ≥ 1` addresses lies outside
memory. -/
theorem forLoop_dumpStep_none (c : Chip8) (n : Nat) (hn : 1 ≤ n)
    (hI : c.I < 65536) (h : 4096 < c.I + n) : forLoop dumpStep n c = none := by
  by_cases hc : 4096 ≤ c.I
  · refine forLoop_none_mono dumpStep 1 n c ?_ hn
    have e : ¬ u16 (c.I + u16 0) < ramSize := by unfold u16 ramSize; omega
    simp only [forLoop, Option.some_bind, dumpStep, e, if_false]
  · refine forLoop_none_mono dumpStep (4096 - c.I + 1) n c ?_ (by omega)
    have e : ¬ u16 (c.I + u16 (4096 - c.I)) < ramSize := by unfold u16 ramSize; omega
    rw [forLoop, forLoop_dumpStep c (4096 - c.I) (by omega), Option.some_bind, dumpStep]
    simp only [e, if_false]

/-- The `FX65` loop fails when one of its `n ≥ 1` addresses lies outside
memory. -/
theorem forLoop_loadStep_none (c : Chip8) (n : Nat) (hn : 1 ≤ n)
    (hI : c.I < 65536) (h : 4096 < c.I + n) : forLoop loadStep n c = none := by
  by_cases hc : 4096 ≤ c.I
  · refine forLoop_none_mono loadStep 1 n c ?_ hn
    have e : ¬ u16 (c.I + u16 0) < ramSize := by unfold u16 ramSize; omega
    simp only [forLoop, Option.some_bind, loadStep, e, if_false]
  · refine forLoop_none_mono loadStep (4096 - c.I + 1) n c ?_ (by omega)
    have e : ¬ u16 (c.I + u16 (4096 - c.I)) < ramSize := by unfold u16 ramSize; omega
    rw [forLoop, forLoop_loadStep c (4096 - c.I) (by omega), Option.some_bind, loadStep]
    simp only [e, if_false]

/-- The outer loop of `DXYN` fails when one of its `n ≥ 1` sprite rows lies
outside memory. -/
theorem drawRows_loop_none (config : Config) (x y : Nat) (c : Chip8) (n : Nat)
    (hn : 1 ≤ n) (hI : c.I < 65536) (h : 4096 < c.I + n) :
    forLoop (drawRow config x y) n c = none := by
  by_cases hc : 4096 ≤ c.I
  · refine forLoop_none_mono _ 1 n c ?_ hn
    have e : ¬ u16 (c.I + u16 0) < ramSize := by unfold u16 ramSize; omega
    rw [forLoop, forLoop, Option.some_bind, drawRow]
    simp only [e, if_false]
  · refine forLoop_none_mono _ (4096 - c.I + 1) n c ?_ (by omega)
    obtain ⟨r, hr, _, hIr, _⟩ := drawRows_loop config x y (4096 - c.I) c (by omega)
    have e : ¬ u16 (r.I + u16 (4096 - c.I)) < ramSize := by
      rw [hIr]; unfold u16 ramSize; omega
    rw [forLoop, hr, Option.some_bind, drawRow]
    simp only [e, if_false]

/-- A failed computation stays failed under `bind`. -/
theorem bind_none_of_none {α β : Type} {o : Option α} (f : α → Option β) (h : o = none) :
    o.bind f = none := by
  rw [h]; rfl

/-- `FX33` completes when `I + 2 ≤ 4095`. -/
theorem bcd_FX33_total (config : Config) (rnd : Nat) (s : Chip8) (X : Nat) (hX : X < 16)
    (h : pointsAt s (0xF0 + X) 0x33) (hI : s.I + 2 ≤ 4095) :
    ∃ r, EmulateInstruction config rnd s = some r ∧ r.I = s.I := by
  rw [EmulateInstruction_of_pointsAt config rnd h (by omega) (by omega)]
  have hd := decode_byte 15 X 0x33 hX (by omega)
  have ht := topNibble_byte 15 X 0x33 (by omega) hX (by omega)
  have e0 : s.I < ramSize := by unfold ramSize; omega
  have e1 : u16 (s.I + 1) = s.I + 1 := by unfold u16; omega
  have e2 : u16 (s.I + 2) = s.I + 2 := by unfold u16; omega
  have l1 : s.I + 1 < ramSize := by unfold ramSize; omega
  have l2 : s.I + 2 < ramSize := by unfold ramSize; omega
  simp only [fetched, execute, show (0xF0 : Nat) = 16 * 15 from rfl, hd, ht, execF, e0, e1, e2,
    l1, l2, if_true]
  exact ⟨_, rfl, rfl⟩

/-- C17, amended.  For every value of the 16-bit index register `I`: `DXYN`
with `N ≥ 1` (64x32 configuration), `FX33`, `FX55` and `FX65` complete
without failure if and only if every cell they address lies inside the
4096-byte memory, that is `I + N ≤ 4096`, `I + 2 ≤ 4095`, `I + X ≤ 4095` and
`I + X ≤ 4095` respectively; otherwise (in particular for every `I ≥ 4096`)
they stop with a runtime error, the address is not wrapped. -/
theorem index_register_bounds (config : Config) (rnd : Nat) (s : Chip8) (X Y N : Nat)
    (hX : X < 16) (hY : Y < 16) (hN : N < 16) (hN1 : 1 ≤ N) (hI : s.I < 65536) :
    (pointsAt s (0xD0 + X) (16 * Y + N) →
      ((∃ r, EmulateInstruction config64x32 rnd s = some r) ↔ s.I + N ≤ 4096)) ∧
    (pointsAt s (0xF0 + X) 0x33 →
      ((∃ r, EmulateInstruction config rnd s = some r) ↔ s.I + 2 ≤ 4095)) ∧
    (pointsAt s (0xF0 + X) 0x55 →
      ((∃ r, EmulateInstruction config rnd s = some r) ↔ s.I + X ≤ 4095)) ∧
    (pointsAt s (0xF0 + X) 0x65 →
      ((∃ r, EmulateInstruction config rnd s = some r) ↔ s.I + X ≤ 4095)) := by
  refine ⟨?_, ?_, ?_, ?_⟩
  · intro h
    constructor
    · rintro ⟨r, hr⟩
      by_contra hc
      have hE : EmulateInstruction config64x32 rnd s = none := by
        rw [emulate_byte config64x32 rnd 13 X (16 * Y + N) (by omega) hX (by omega) h]
        have hN2 : (16 * Y + N) % 16 = N := by omega
        have hw : ¬ u8 config64x32.WindowWidth = 0 := by decide
        have hh : ¬ u8 config64x32.WindowHeight = 0 := by decide
        simp only [execute, topNibble_byte 13 X (16 * Y + N) (by omega) hX (by omega), execD,
          hN2, hw, hh, if_false]
        exact bind_none_of_none _ (drawRows_loop_none config64x32 _ _ _ N hN1 hI
          (by show 4096 < s.I + N; omega))
      rw [hE] at hr
      cases hr
    · intro hle
      obtain ⟨r, hr, _⟩ := emulate_DXYN_display rnd s X Y N hX hY hN h hle
      exact ⟨r, hr⟩
  · intro h
    constructor
    · rintro ⟨r, hr⟩
      by_contra hc
      rw [EmulateInstruction_of_pointsAt config rnd h (by omega) (by omega)] at hr
      have hd := decode_byte 15 X 0x33 hX (by omega)
      have ht := topNibble_byte 15 X 0x33 (by omega) hX (by omega)
      simp only [fetched, execute, show (0xF0 : Nat) = 16 * 15 from rfl, hd, ht, execF] at hr
      by_cases h0 : s.I < ramSize
      · by_cases h1 : u16 (s.I + 1) < ramSize
        · have h2 : ¬ u16 (s.I + 2) < ramSize := by unfold u16 ramSize at *; omega
          simp only [h0, h1, h2, if_true, if_false] at hr
          cases hr
        · simp only [h0, h1, if_true, if_false] at hr
          cases hr
      · simp only [h0, if_false] at hr
        cases hr
    · intro hle
      obtain ⟨r, hr, _⟩ := bcd_FX33_total config rnd s X hX h hle
      exact ⟨r, hr⟩
  · intro h
    constructor
    · rintro ⟨r, hr⟩
      by_contra hc
      have hE : EmulateInstruction config rnd s = none := by
        rw [EmulateInstruction_of_pointsAt config rnd h (by omega) (by omega)]
        have hd := decode_byte 15 X 0x55 hX (by omega)
        have ht := topNibble_byte 15 X 0x55 (by omega) hX (by omega)
        simp only [fetched, execute, show (0xF0 : Nat) = 16 * 15 from rfl, hd, ht, execF]
        exact forLoop_dumpStep_none _ (X + 1) (by omega) hI (by show 4096 < s.I + (X + 1); omega)
      rw [hE] at hr
      cases hr
    · intro hle
      exact ⟨_, emulate_FX55 config rnd s X hX h hle⟩
  · intro h
    constructor
    · rintro ⟨r, hr⟩
      by_contra hc
      have hE : EmulateInstruction config rnd s = none := by
        rw [EmulateInstruction_of_pointsAt config rnd h (by omega) (by omega)]
        have hd := decode_byte 15 X 0x65 hX (by omega)
        have ht := topNibble_byte 15 X 0x65 (by omega) hX (by omega)
        simp only [fetched, execute, show (0xF0 : Nat) = 16 * 15 from rfl, hd, ht, execF]
        exact forLoop_loadStep_none _ (X + 1) (by omega) hI (by show 4096 < s.I + (X + 1); omega)
      rw [hE] at hr
      cases hr
    · intro hle
      exact ⟨_, emulate_FX65 config rnd s X hX h hle⟩

/-- Witness for `index_register_bounds`: `D011`, `F033`, `F055`, `F065` with
`I = 0x300` complete. -/
theorem index_register_bounds_witness :
    (pointsAt (indexState 0xD0 0x11 0x300) (0xD0 + 0) (16 * 1 + 1) ∧
      ∃ r, EmulateInstruction config64x32 0 (indexState 0xD0 0x11 0x300) = some r) ∧
    (pointsAt (indexState 0xF0 0x33 0x300) (0xF0 + 0) 0x33 ∧
      ∃ r, EmulateInstruction config64x32 0 (indexState 0xF0 0x33 0x300) = some r) ∧
    (pointsAt (indexState 0xF0 0x55 0x300) (0xF0 + 0) 0x55 ∧
      ∃ r, EmulateInstruction config64x32 0 (indexState 0xF0 0x55 0x300) = some r) ∧
    (pointsAt (indexState 0xF0 0x65 0x300) (0xF0 + 0) 0x65 ∧
      ∃ r, EmulateInstruction config64x32 0 (indexState 0xF0 0x65 0x300) = some r) :=
  ⟨⟨by decide,
      ((index_register_bounds config64x32 0 (indexState 0xD0 0x11 0x300) 0 1 1 (by decide)
        (by decide) (by decide) (by decide) (by decide)).1 (by decide)).mpr (by decide)⟩,
    ⟨by decide,
      ((index_register_bounds config64x32 0 (indexState 0xF0 0x33 0x300) 0 1 1 (by decide)
        (by decide) (by decide) (by decide) (by decide)).2.1 (by decide)).mpr (by decide)⟩,
    ⟨by decide,
      ((index_register_bounds config64x32 0 (indexState 0xF0 0x55 0x300) 0 1 1 (by decide)
        (by decide) (by decide) (by decide) (by decide)).2.2.1 (by decide)).mpr (by decide)⟩,
    ⟨by decide,
      ((index_register_bounds config64x32 0 (indexState 0xF0 0x65 0x300) 0 1 1 (by decide)
        (by decide) (by decide) (by decide) (by decide)).2.2.2 (by decide)).mpr (by decide)⟩⟩

/-! ## C18: the stack pointer stays within `0..16` -/

/-- A property kept by every iteration is kept by the loop. -/
theorem forLoop_invariant {σ : Type} (P : σ → Prop) (body : Nat → σ → Option σ)
    (hb : ∀ i s r, body i s = some r → P s → P r) :
    ∀ n s r, forLoop body n s = some r → P s → P r := by
  intro n
  induction n with
  | zero =>
    intro s r h hP
    simp only [forLoop, Option.some.injEq] at h
    subst h
    exact hP
  | succ n ih =>
    intro s r h hP
    rw [forLoop] at h
    obtain ⟨m, hm, hr⟩ := Option.bind_eq_some.mp h
    exact hb n m r hr (ih s m hm hP)

theorem exec8_StackPointer (c r : Chip8) (h : exec8 c = some r) :
    r.StackPointer = c.StackPointer := by
  unfold exec8 at h
  split at h <;> simp only [Option.some.injEq] at h <;> subst h <;>
    first | rfl | (simp only []; split <;> rfl)

theorem drawPixel_StackPointer (config : Config) (x y sp i j : Nat) (c : Chip8) :
    (drawPixel config x y sp i j c).StackPointer = c.StackPointer := by
  unfold drawPixel
  by_cases hb : spriteBit sp j = true
  · by_cases hp : cellIndex config x y i j < displaySize
    · by_cases hd : c.Display (cellIndex config x y i j) = true <;> simp [hb, hp, hd]
    · simp [hb, hp]
  · simp [hb]

theorem drawRow_StackPointer (config : Config) (x y i : Nat) (c r : Chip8)
    (h : drawRow config x y i c = some r) : r.StackPointer = c.StackPointer := by
  unfold drawRow at h
  dsimp only at h
  split at h
  · exact forLoop_invariant (fun d => d.StackPointer = c.StackPointer) _
      (fun j s q hq hs => by
        simp only [Option.some.injEq] at hq
        subst hq
        exact (drawPixel_StackPointer config x y _ i j s).trans hs) 8 c r h rfl
  · cases h

theorem execD_StackPointer (config : Config) (c r : Chip8) (h : execD config c = some r) :
    r.StackPointer = c.StackPointer := by
  unfold execD at h
  split at h
  · cases h
  · split at h
    · cases h
    · obtain ⟨m, hm, hr⟩ := Option.bind_eq_some.mp h
      simp only [Option.some.injEq] at hr
      subst hr
      exact forLoop_invariant (fun d => d.StackPointer = c.StackPointer) _
        (fun i s q hq hs => (drawRow_StackPointer config _ _ i s q hq).trans hs)
        _ _ m hm rfl

theorem execE_StackPointer (c r : Chip8) (h : execE c = some r) :
    r.StackPointer = c.StackPointer := by
  unfold execE at h
  split at h
  · split at h
    · split at h <;> simp only [Option.some.injEq] at h <;> subst h <;> rfl
    · cases h
  · split at h
    · split at h <;> simp only [Option.some.injEq] at h <;> subst h <;> rfl
    · cases h
  · simp only [Option.some.injEq] at h
    subst h; rfl

theorem dumpStep_StackPointer (i : Nat) (c r : Chip8) (h : dumpStep i c = some r) :
    r.StackPointer = c.StackPointer := by
  unfold dumpStep at h
  split at h
  · simp only [Option.some.injEq] at h
    subst h; rfl
  · cases h

theorem loadStep_StackPointer (i : Nat) (c r : Chip8) (h : loadStep i c = some r) :
    r.StackPointer = c.StackPointer := by
  unfold loadStep at h
  split at h
  · simp only [Option.some.injEq] at h
    subst h; rfl
  · cases h

theorem execF_StackPointer (c r : Chip8) (h : execF c = some r) :
    r.StackPointer = c.StackPointer := by
  unfold execF at h
  split at h
  · split at h <;> simp only [Option.some.injEq] at h <;> subst h <;> rfl
  · simp only [Option.some.injEq] at h; subst h; rfl
  · simp only [Option.some.injEq] at h; subst h; rfl
  · simp only [Option.some.injEq] at h; subst h; rfl
  · simp only [Option.some.injEq] at h; subst h; rfl
  · simp only [Option.some.injEq] at h; subst h; rfl
  · split at h
    · dsimp only at h
      split at h
      · split at h
        · simp only [Option.some.injEq] at h; subst h; rfl
        · cases h
      · cases h
    · cases h
  · exact forLoop_invariant (fun d => d.StackPointer = c.StackPointer) _
      (fun i s q hq hs => (dumpStep_StackPointer i s q hq).trans hs) _ c r h rfl
  · exact forLoop_invariant (fun d => d.StackPointer = c.StackPointer) _
      (fun i s q hq hs => (loadStep_StackPointer i s q hq).trans hs) _ c r h rfl
  · simp only [Option.some.injEq] at h; subst h; rfl

/-- The `switch` keeps the stack pointer within `0..16`. -/
theorem execute_StackPointer_le (config : Config) (rnd : Nat) (c r : Chip8)
    (h : execute config rnd c = some r) (hsp : c.StackPointer ≤ 16) :
    r.StackPointer ≤ 16 := by
  unfold execute at h
  split at h
  · split at h
    · simp only [Option.some.injEq] at h; subst h; exact hsp
    · split at h
      · dsimp only at h
        split at h
        · rename_i hlt
          simp only [Option.some.injEq] at h; subst h
          unfold sixteen at hlt
          exact Nat.le_of_lt hlt
        · cases h
      · simp only [Option.some.injEq] at h; subst h; exact hsp
  · simp only [Option.some.injEq] at h; subst h; exact hsp
  · split at h
    · rename_i hlt
      simp only [Option.some.injEq] at h; subst h
      show u8 (c.StackPointer + 1) ≤ 16
      unfold sixteen at hlt
      unfold u8
      omega
    · cases h
  · split at h <;> simp only [Option.some.injEq] at h <;> subst h <;> exact hsp
  · split at h <;> simp only [Option.some.injEq] at h <;> subst h <;> exact hsp
  · split at h
    · simp only [Option.some.injEq] at h; subst h; exact hsp
    · split at h <;> simp only [Option.some.injEq] at h <;> subst h <;> exact hsp
  · simp only [Option.some.injEq] at h; subst h; exact hsp
  · simp only [Option.some.injEq] at h; subst h; exact hsp
  · rw [exec8_StackPointer c r h]; exact hsp
  · split at h
    · simp only [Option.some.injEq] at h; subst h; exact hsp
    · split at h <;> simp only [Option.some.injEq] at h <;> subst h <;> exact hsp
  · simp only [Option.some.injEq] at h; subst h; exact hsp
  · simp only [Option.some.injEq] at h; subst h; exact hsp
  · simp only [Option.some.injEq] at h; subst h; exact hsp
  · rw [execD_StackPointer config c r h]; exact hsp
  · rw [execE_StackPointer c r h]; exact hsp
  · rw [execF_StackPointer c r h]; exact hsp
  · simp only [Option.some.injEq] at h; subst h; exact hsp

/-- One instruction keeps the stack pointer within `0..16`. -/
theorem emulate_StackPointer_le (config : Config) (rnd : Nat) (s r : Chip8)
    (hsp : s.StackPointer ≤ 16) (h : EmulateInstruction config rnd s = some r) :
    r.StackPointer ≤ 16 := by
  unfold EmulateInstruction at h
  obtain ⟨w, _, he⟩ := Option.bind_eq_some.mp h
  exact execute_StackPointer_le config rnd _ r he hsp

/-- Any number of instructions keeps the stack pointer within `0..16`. -/
theorem runN_StackPointer_le (config : Config) (rnd : Nat → Nat) (n : Nat) :
    ∀ s r, s.StackPointer ≤ 16 → runN config rnd n s = some r → r.StackPointer ≤ 16 := by
  induction n with
  | zero =>
    intro s r hsp h
    simp only [runN, Option.some.injEq] at h
    subst h; exact hsp
  | succ n ih =>
    intro s r hsp h
    rw [runN] at h
    obtain ⟨m, hm, hr⟩ := Option.bind_eq_some.mp h
    exact emulate_StackPointer_le config (rnd n) m r (ih s m hsp hm) hr

/-- The machine `NewChip8` returns has an empty stack. -/
theorem NewChip8_StackPointer (romName : String) (rom : List Nat) :
    ∀ c, NewChip8 romName (some rom) = some c → c.StackPointer = 0 := by
  intro c hc
  by_cases h : rom.length ≤ 3584
  · rw [NewChip8_eq romName rom h] at hc
    cases hc
    rfl
  · have hlen : rom.length > ramSize - 0x200 := by unfold ramSize; omega
    simp only [NewChip8, hlen, if_true] at hc
    cases hc

/-- C18.  If `StackPointer ≤ 16` and `EmulateInstruction` completes, the
resulting `StackPointer` is again `≤ 16`, for every opcode.  `2NNN` at
`StackPointer = 16` and `00EE` at `StackPointer = 0` fail instead of producing
a state.  Hence every state reached by running instructions from a freshly
constructed machine has `0 ≤ StackPointer ≤ 16`. -/
theorem stackPointer_invariant (config : Config) :
    (∀ rnd s r, s.StackPointer ≤ 16 → EmulateInstruction config rnd s = some r →
      0 ≤ r.StackPointer ∧ r.StackPointer ≤ 16) ∧
    (∀ rnd s X NN, X < 16 → NN < 256 → pointsAt s (0x20 + X) NN → s.StackPointer = 16 →
      EmulateInstruction config rnd s = none) ∧
    (∀ rnd s, pointsAt s 0x00 0xEE → s.StackPointer = 0 →
      EmulateInstruction config rnd s = none) ∧
    (∀ romName rom c0 rnd n r, NewChip8 romName (some rom) = some c0 →
      runN config rnd n c0 = some r → 0 ≤ r.StackPointer ∧ r.StackPointer ≤ 16) := by
  refine ⟨?_, ?_, ?_, ?_⟩
  · intro rnd s r hsp h
    exact ⟨Nat.zero_le _, emulate_StackPointer_le config rnd s r hsp h⟩
  · intro rnd s X NN hX hNN h hsp
    rw [emulate_byte config rnd 2 X NN (by omega) hX hNN h]
    have hn : ¬ s.StackPointer < sixteen := by unfold sixteen; omega
    simp only [execute, topNibble_byte 2 X NN (by omega) hX hNN, hn, if_false]
  · intro rnd s h hsp
    rw [emulate_byte config rnd 0 0 0xEE (by omega) (by omega) (by omega) h]
    have hn : ¬ sub8 s.StackPointer 1 < sixteen := by rw [hsp]; decide
    simp only [execute, topNibble_byte 0 0 0xEE (by omega) (by omega) (by omega), hn,
      show ¬ ((0xEE : Nat) = 0xE0) by decide, if_false, if_true]
  · intro romName rom c0 rnd n r h0 hr
    have hsp0 : c0.StackPointer ≤ 16 := by
      have := ((NewChip8_StackPointer romName rom) c0 h0)
      omega
    exact ⟨Nat.zero_le _, runN_StackPointer_le config rnd n c0 r hsp0 hr⟩

/-- Witness for `stackPointer_invariant`: a call at `StackPointer = 3` gives
4; a call at 16 and a return at 0 fail; three instructions of the sample ROM
keep the stack pointer in range. -/
theorem stackPointer_invariant_witness :
    (∃ r, EmulateInstruction config64x32 0 (stackState 0x22 0x04 3) = some r ∧
      0 ≤ r.StackPointer ∧ r.StackPointer ≤ 16) ∧
    (pointsAt (stackState 0x22 0x04 16) (0x20 + 2) 0x04 ∧
      EmulateInstruction config64x32 0 (stackState 0x22 0x04 16) = none) ∧
    (pointsAt (stackState 0x00 0xEE 0) 0x00 0xEE ∧
      EmulateInstruction config64x32 0 (stackState 0x00 0xEE 0) = none) ∧
    (∃ c0 r, NewChip8 "rom.ch8" (some sampleRom) = some c0 ∧
      runN config64x32 (fun _ => 0) 3 c0 = some r ∧
      0 ≤ r.StackPointer ∧ r.StackPointer ≤ 16) := by
  have hall := stackPointer_invariant config64x32
  refine ⟨?_, ⟨by decide, hall.2.1 0 _ 2 0x04 (by decide) (by decide) (by decide) rfl⟩,
    ⟨by decide, hall.2.2.1 0 _ (by decide) rfl⟩, ?_⟩
  · have hs : (EmulateInstruction config64x32 0 (stackState 0x22 0x04 3)).isSome = true := by
      decide
    obtain ⟨r, hr⟩ := Option.isSome_iff_exists.mp hs
    exact ⟨r, hr, hall.1 0 _ r (by decide) hr⟩
  · have hs : ((NewChip8 "rom.ch8" (some sampleRom)).bind
        (runN config64x32 (fun _ => 0) 3)).isSome = true := by decide
    obtain ⟨r, hr⟩ := Option.isSome_iff_exists.mp hs
    obtain ⟨c0, hc0, hrun⟩ := Option.bind_eq_some.mp hr
    exact ⟨c0, r, hc0, hrun, hall.2.2.2 _ _ c0 _ 3 r hc0 hrun⟩

end Chip8emu
